import Mathlib

/-!
Verification development for ptgen (src/ptgen.c), a partition table
generator producing MBR and GPT tables.  The definitions below are a
shallow embedding of the C source: machine integers become `Nat` with
explicit `% 2^w` where the C stores into a fixed-width field, the
NUL-terminated string walk of `init_utf16` becomes a fuel/consumption
recursion over a byte list, and the fallible table builders return
`Except PtgenErr`.
-/

namespace Ptgen

/-- Error outcomes of the table builders, mirroring the three
`fprintf(stderr, ...); return -1` sites in `gen_ptable`/`gen_gptable`:
"Invalid size in partition %d", "Invalid start %lld for partition %d",
"Partition %d ends after last usable sector". -/
inductive PtgenErr where
  | invalidSize
  | invalidStart
  | afterLastUsable
deriving DecidableEq, Inhabited

/-- GPT_SIZE = GPT_ENTRY_SIZE * GPT_ENTRY_MAX / DISK_SECTOR_SIZE (ptgen.c line 97). -/
def GPT_SIZE : Nat := 128 * 128 / 512

/-- GPT_ATTR_LEGACY_BOOT = BIT(2) (ptgen.c line 101). -/
def GPT_ATTR_LEGACY_BOOT : Nat := 4

/-- GPT_ATTR_PLAT_REQUIRED = BIT(0) (ptgen.c line 99). -/
def GPT_ATTR_PLAT_REQUIRED : Nat := 1

/-- GUID_PARTITION_BIOS_BOOT as its 16-byte little-endian-mixed memory image,
expanding GUID_INIT(0x21686148, 0x6449, 0x6E6F, 0x74,0x4E,0x65,0x65,0x64,0x45,0x46,0x49)
(ptgen.c lines 49-54, 69-71). -/
def GUID_PARTITION_BIOS_BOOT : List Nat :=
  [0x48, 0x61, 0x68, 0x21, 0x49, 0x64, 0x6F, 0x6E,
   0x74, 0x4E, 0x65, 0x65, 0x64, 0x45, 0x46, 0x49]

/-- One partition request, mirroring `struct partinfo` (ptgen.c lines 123-134).
`start` and `size` are in KByte as parsed by `to_kbytes`; the builders
multiply by 2 to get 512-byte sectors.  `guid` is the 16-byte type GUID
(field `guid` of `struct partinfo`, used as the GPT entry type),
`gattr` the raw GPT attribute bits. -/
structure Partinfo where
  start : Nat := 0
  size : Nat := 0
  ptype : Nat := 0
  hybrid : Bool := false
  name : Option (List Nat) := none
  required : Bool := false
  guid : List Nat := List.replicate 16 0
  gattr : Nat := 0
deriving DecidableEq, Inhabited

/-- The ambient configuration globals of ptgen.c (lines 165-178) that the
table builders read: geometry, alignment, active index, the
null-size-skip policy and the GPT placement parameters. -/
structure Cfg where
  heads : Nat := 0
  sectors : Nat := 0
  kb_align : Nat := 0
  active : Nat := 1
  ignore_null_sized_partition : Bool := false
  gpt_first_entry_sector : Nat := 2
  gpt_last_usable_sector : Nat := 0
  gpt_alternate : Bool := false
deriving DecidableEq, Inhabited

/-- `to_chs` (ptgen.c lines 215-230): convert a sector number into the
3-byte CHS encoding; each output byte is a `uint8_t`, hence `% 256`. -/
def to_chs (cfg : Cfg) (sect : Nat) : List Nat :=
  let s := sect % cfg.sectors + 1
  let sect1 := sect / cfg.sectors
  let h := sect1 % cfg.heads
  let c := sect1 / cfg.heads
  [h % 256, (s ||| ((c >>> 2) &&& 0xC0)) % 256, c &&& 0xFF]

/-- `round_to_cyl` (ptgen.c lines 233-238): round the sector number up to
the next cylinder: `sect + cyl_size - (sect % cyl_size)`. -/
def round_to_cyl (cfg : Cfg) (sect : Nat) : Nat :=
  let cyl_size := cfg.heads * cfg.sectors
  sect + cyl_size - sect % cyl_size

/-- `round_to_kb` (ptgen.c lines 241-243): round the sector number up to
the `kb_align` boundary: `((sect - 1) / kb_align + 1) * kb_align`. -/
def round_to_kb (cfg : Cfg) (sect : Nat) : Nat :=
  ((sect - 1) / cfg.kb_align + 1) * cfg.kb_align

/-- One step of the CRC32 bit loop: shift right, conditionally xoring in
the reflected polynomial 0xEDB88320. -/
def crc32_bit (c : Nat) : Nat :=
  if c % 2 = 1 then (c / 2) ^^^ 0xEDB88320 else c / 2

/-- Accumulate one byte into a running CRC32 state. -/
def crc32_update (c b : Nat) : Nat :=
  (List.range 8).foldl (fun acc _ => crc32_bit acc) (c ^^^ b)

/-- Modelled from the spec: the CRC32 engine `cyg_crc32_accumulate` lives in
cyg_crc.h, which is not part of the provided sources; per spec section 4.5 it
is the "Standard reflected CRC32, seeded all-ones, output inverted".
`gpt_crc32` itself mirrors ptgen.c lines 246-249:
`cyg_crc32_accumulate(~0L, buf, len) ^ ~0L`. -/
def gpt_crc32 (bytes : List Nat) : Nat :=
  (bytes.foldl crc32_update 0xFFFFFFFF) ^^^ 0xFFFFFFFF

/-- Little-endian byte image of a value in `k` bytes (`cpu_to_leNN` on a
little-endian host writing into a packed struct). -/
def leBytes (k n : Nat) : List Nat :=
  (List.range k).map (fun j => n / 256 ^ j % 256)

/-- `init_utf16` (ptgen.c lines 306-326) as a recursion that consumes the
UTF-8 byte list (the C code walks an index `n` through a NUL-terminated
buffer; reading at/past the terminator yields 0, which the empty list
models).  The fuel argument is `bufsize`: one UTF-16 unit is emitted per
iteration.  A unit of 0 is written and the walk stops at the string end;
1-, 2- and 3-byte UTF-8 sequences are decoded; any other lead byte
produces one `?` (0x3F) unit and consumes exactly one byte. -/
def init_utf16_go : Nat → List Nat → List Nat
  | 0, _ => []
  | _ + 1, [] => [0]
  | bufsize + 1, b :: rest =>
    if b = 0 then
      [0]
    else if b &&& 0x80 = 0 then
      b :: init_utf16_go bufsize rest
    else if b &&& 0xE0 = 0xC0 then
      (((b &&& 0x1F) <<< 6) ||| (rest.getD 0 0 &&& 0x3F)) ::
        init_utf16_go bufsize (rest.drop 1)
    else if b &&& 0xF0 = 0xE0 then
      (((b &&& 0x0F) <<< 12) ||| ((rest.getD 0 0 &&& 0x3F) <<< 6) |||
          (rest.getD 1 0 &&& 0x3F)) ::
        init_utf16_go bufsize (rest.drop 2)
    else
      0x3F :: init_utf16_go bufsize rest

/-- `init_utf16 str buf bufsize`: the list of UTF-16 units actually written
into `buf` (the surrounding entry is zero-initialised, so unwritten units
stay 0; serialisation pads accordingly). -/
def init_utf16 (str : List Nat) (bufsize : Nat) : List Nat :=
  init_utf16_go bufsize str

/-- An MBR partition table entry, `struct pte` (ptgen.c lines 114-121).
`start` and `length` are `uint32_t`, stored modulo 2^32. -/
structure MbrPte where
  active : Nat := 0
  chs_start : List Nat := [0, 0, 0]
  ptype : Nat := 0
  chs_end : List Nat := [0, 0, 0]
  start : Nat := 0
  length : Nat := 0
deriving DecidableEq, Inhabited

/-- The all-zero `struct pte` produced by the `memset` in both builders. -/
def zeroPte : MbrPte := {}

/-- One successfully laid out MBR partition: its request index `idx`, the
computed `start` and `len` in sectors (the values printed as
`start * DISK_SECTOR_SIZE` / `len * DISK_SECTOR_SIZE`), and the table
entry `pte[idx]` filled by the loop. -/
structure MbrItem where
  idx : Nat
  start : Nat
  len : Nat
  pte : MbrPte
deriving DecidableEq, Inhabited

/-- The `pte[i]` record filled for a laid-out MBR partition
(ptgen.c lines 344-366): active byte, type byte, CHS of start and of
`start + len - 1`, 32-bit LBA start/length. -/
def mkMbrPte (cfg : Cfg) (i start len : Nat) (p : Partinfo) : MbrPte :=
  { active := if i + 1 = cfg.active then 0x80 else 0
    chs_start := to_chs cfg start
    ptype := p.ptype
    chs_end := to_chs cfg (start + len - 1)
    start := start % 2 ^ 32
    length := len % 2 ^ 32 }

/-- The start sector computed for a laid-out MBR request
(ptgen.c lines 347-357): the default is `sect + sectors` (one track past
the cursor); a non-zero explicit start overrides it with `start * 2`
sectors; otherwise a configured `kb_align` rounds the default up. -/
def mbrStart (cfg : Cfg) (p : Partinfo) (sect : Nat) : Nat :=
  if p.start ≠ 0 then p.start * 2
  else if cfg.kb_align ≠ 0 then round_to_kb cfg (sect + cfg.sectors)
  else sect + cfg.sectors

/-- The cursor after a laid-out MBR request (ptgen.c lines 360-362):
`start + size * 2`, cylinder-rounded when alignment is disabled. -/
def mbrNext (cfg : Cfg) (p : Partinfo) (sect : Nat) : Nat :=
  if cfg.kb_align = 0 then round_to_cyl cfg (mbrStart cfg p sect + p.size * 2)
  else mbrStart cfg p sect + p.size * 2

/-- The partition-check loop of `gen_ptable` (ptgen.c lines 336-376):
running over the requests with index `i` and cursor `sect` (initially 0),
producing the laid-out items and the final cursor.  Per request:
zero size is skipped (policy set) or fails; an explicit start must satisfy
`start*2 >= sect + sectors`; the entry start is `mbrStart`, the new cursor
`mbrNext`, and the entry length the distance between the two. -/
def ptableLoop (cfg : Cfg) : List Partinfo → Nat → Nat →
    Except PtgenErr (List MbrItem × Nat)
  | [], _, sect => .ok ([], sect)
  | p :: rest, i, sect =>
    if p.size = 0 then
      if cfg.ignore_null_sized_partition then
        ptableLoop cfg rest (i + 1) sect
      else
        .error .invalidSize
    else
      if p.start ≠ 0 ∧ p.start * 2 < sect + cfg.sectors then
        .error .invalidStart
      else
        (ptableLoop cfg rest (i + 1) (mbrNext cfg p sect)).map
          (fun r =>
            ((⟨i, mbrStart cfg p sect, mbrNext cfg p sect - mbrStart cfg p sect,
              mkMbrPte cfg i (mbrStart cfg p sect)
                (mbrNext cfg p sect - mbrStart cfg p sect) p⟩ :
              MbrItem) :: r.1, r.2))

/-- `gen_ptable` (ptgen.c lines 329-404) up to the point where the table is
written: the laid-out items (an error means the run fails before the
output file is opened, so no table is emitted). -/
def gen_ptable (cfg : Cfg) (parts : List Partinfo) :
    Except PtgenErr (List MbrItem) :=
  (ptableLoop cfg parts 0 0).map (·.1)

/-- A GPT partition table entry, `struct gpte` (ptgen.c lines 155-162).
`type` and `guid` are 16-byte GUID images, `name` the UTF-16 unit list
written by `init_utf16` (unwritten tail stays zero). -/
structure GptEntry where
  gtype : List Nat := List.replicate 16 0
  guid : List Nat := List.replicate 16 0
  start : Nat := 0
  end_ : Nat := 0
  attr : Nat := 0
  name : List Nat := List.replicate 36 0
deriving DecidableEq, Inhabited

/-- The all-zero `struct gpte` produced by the `memset` in `gen_gptable`. -/
def zeroGpte : GptEntry := {}

/-- `guid.b[15] += k` on a 16-byte GUID image (`uint8_t` addition). -/
def guidAddLast (g : List Nat) (k : Nat) : List Nat :=
  g.set 15 ((g.getD 15 0 + k) % 256)

/-- One successfully laid out GPT partition: request index, computed start
and size (KByte), the request's hybrid flag and legacy type byte (consumed
by the hybrid MBR mirroring), and the entry `gpte[idx]`. -/
structure GptItem where
  idx : Nat
  start : Nat
  size : Nat
  hybrid : Bool
  ptype : Nat
  gpte : GptEntry
deriving DecidableEq, Inhabited

/-- The `gpte[i]` record filled for a laid-out GPT partition
(ptgen.c lines 455-481): start, inclusive end `sect - 1`, the per-partition
GUID derived from the disk GUID by offsetting its last byte by `i + 1`,
the request's type GUID, attribute bits (legacy-boot for the active index,
platform-required when flagged) and the UTF-16 name. -/
def mkGpte (cfg : Cfg) (guid : List Nat) (i start : Nat) (p : Partinfo) :
    GptEntry :=
  { gtype := p.guid
    guid := guidAddLast guid (i + 1)
    start := start
    end_ := start + p.size * 2 - 1
    attr := (p.gattr ||| (if i + 1 = cfg.active then GPT_ATTR_LEGACY_BOOT else 0))
      ||| (if p.required then GPT_ATTR_PLAT_REQUIRED else 0)
    name := match p.name with
      | some s => init_utf16 s 36
      | none => List.replicate 36 0 }

/-- The start sector computed for a laid-out GPT request
(ptgen.c lines 437-447): the default is the cursor `sect` itself; a
non-zero explicit start overrides it with `start * 2` sectors; otherwise a
configured `kb_align` rounds the cursor up. -/
def gptStart (cfg : Cfg) (p : Partinfo) (sect : Nat) : Nat :=
  if p.start ≠ 0 then p.start * 2
  else if cfg.kb_align ≠ 0 then round_to_kb cfg sect
  else sect

/-- The partition-check loop of `gen_gptable` (ptgen.c lines 430-490):
cursor `sect` starts at `GPT_SIZE + gpt_first_entry_sector`; per request:
zero size skipped/failed as in the MBR loop; an explicit start must
satisfy `start*2 >= sect`; the allocation must not pass
`gpt_last_usable_sector` (when configured); the new cursor is
`gptStart + size * 2`. -/
def gptableLoop (cfg : Cfg) (guid : List Nat) : List Partinfo → Nat → Nat →
    Except PtgenErr (List GptItem × Nat)
  | [], _, sect => .ok ([], sect)
  | p :: rest, i, sect =>
    if p.size = 0 then
      if cfg.ignore_null_sized_partition then
        gptableLoop cfg guid rest (i + 1) sect
      else
        .error .invalidSize
    else
      if p.start ≠ 0 ∧ p.start * 2 < sect then
        .error .invalidStart
      else
        if 0 < cfg.gpt_last_usable_sector ∧
            cfg.gpt_last_usable_sector + 1 < gptStart cfg p sect + p.size * 2 then
          .error .afterLastUsable
        else
          (gptableLoop cfg guid rest (i + 1) (gptStart cfg p sect + p.size * 2)).map
            (fun r =>
              ((⟨i, gptStart cfg p sect, p.size, p.hybrid, p.ptype,
                mkGpte cfg guid i (gptStart cfg p sect) p⟩ :
                GptItem) :: r.1, r.2))

/-- `parts[0].actual_start` as read after the loop (ptgen.c line 493): the
computed start of request 0 if it was laid out, else the zero-initialised
global value 0 (request 0 skipped, or no requests). -/
def actualStart0 (items : List GptItem) : Nat :=
  ((items.find? (fun it => it.idx = 0)).map (·.start)).getD 0

/-- The 128-slot entry array as left by the loop: slot `j` holds the entry
of the request with index `j` when that request was laid out, else the
zeroed entry (`gpte` is `memset` to zero and indexed by request index). -/
def entriesArrOf (items : List GptItem) : List GptEntry :=
  (List.range 128).map
    (fun j => ((items.find? (fun it => it.idx = j)).map (·.gpte)).getD zeroGpte)

/-- The BIOS-boot filler synthesis (ptgen.c lines 492-499): when request 0
has a non-zero explicit start and its computed start lies beyond
`gpt_first_entry_sector + GPT_SIZE`, slot 127 gets start/end/type/guid
overwritten (its other fields are left as they were). -/
def applyFiller (cfg : Cfg) (guid : List Nat) (parts : List Partinfo)
    (items : List GptItem) (arr : List GptEntry) : List GptEntry :=
  if (parts.headD default).start ≠ 0 ∧
      cfg.gpt_first_entry_sector + GPT_SIZE < actualStart0 items then
    arr.set 127
      { arr.getD 127 zeroGpte with
        start := cfg.gpt_first_entry_sector + GPT_SIZE
        end_ := actualStart0 items - 1
        gtype := GUID_PARTITION_BIOS_BOOT
        guid := guidAddLast guid 128 }
  else
    arr

/-- The primary-MBR effect of the hybrid branch (ptgen.c lines 463-471),
replayed over the laid-out items in loop order: for each hybrid item while
`pmbr < MBR_ENTRY_MAX`, slot `pmbr` receives active/type/LBA start/length,
but the CHS values are written into slot 1 (the source hard-codes
`pte[1]`), and `pmbr` advances. -/
def hybridPteFold (cfg : Cfg) : List MbrPte → Nat → List GptItem → List MbrPte
  | arr, _, [] => arr
  | arr, pmbr, it :: rest =>
    if it.hybrid ∧ pmbr < 4 then
      let arr1 := arr.set pmbr
        { zeroPte with
          active := if it.idx + 1 = cfg.active then 0x80 else 0
          ptype := it.ptype
          start := it.start % 2 ^ 32
          length := (it.size * 2) % 2 ^ 32 }
      let arr2 := arr1.set 1
        { arr1.getD 1 zeroPte with
          chs_start := to_chs cfg it.start
          chs_end := to_chs cfg (it.start + it.size * 2 - 1) }
      hybridPteFold cfg arr2 (pmbr + 1) rest
    else
      hybridPteFold cfg arr pmbr rest

/-- GPT partition table header, `struct gpth` (ptgen.c lines 137-152). -/
structure Gpth where
  signature : Nat := 0
  revision : Nat := 0
  size : Nat := 0
  crc32 : Nat := 0
  reserved : Nat := 0
  self : Nat := 0
  alternate : Nat := 0
  first_usable : Nat := 0
  last_usable : Nat := 0
  disk_guid : List Nat := List.replicate 16 0
  first_entry : Nat := 0
  entry_num : Nat := 0
  entry_size : Nat := 0
  entry_crc32 : Nat := 0
deriving DecidableEq, Inhabited

/-- The 92-byte memory image of the packed `struct gpth` as written by
`write(fd, &gpth, GPT_HEADER_SIZE)`, fields converted with `cpu_to_leNN`. -/
def gpthBytes (h : Gpth) : List Nat :=
  leBytes 8 h.signature ++ leBytes 4 h.revision ++ leBytes 4 h.size ++
    leBytes 4 h.crc32 ++ leBytes 4 h.reserved ++ leBytes 8 h.self ++
    leBytes 8 h.alternate ++ leBytes 8 h.first_usable ++
    leBytes 8 h.last_usable ++ (List.range 16).map (h.disk_guid.getD · 0) ++
    leBytes 8 h.first_entry ++ leBytes 4 h.entry_num ++
    leBytes 4 h.entry_size ++ leBytes 4 h.entry_crc32

/-- The 128-byte memory image of one packed `struct gpte`: type GUID,
partition GUID, start, inclusive end, attributes, 36 UTF-16LE name units. -/
def gpteBytes (e : GptEntry) : List Nat :=
  (List.range 16).map (e.gtype.getD · 0) ++
    (List.range 16).map (e.guid.getD · 0) ++
    leBytes 8 e.start ++ leBytes 8 e.end_ ++ leBytes 8 e.attr ++
    ((List.range 36).map (e.name.getD · 0)).foldr
      (fun u acc => leBytes 2 u ++ acc) []

/-- The byte image of the full 128-entry array. -/
def entriesBytes (arr : List GptEntry) : List Nat :=
  arr.foldr (fun e acc => gpteBytes e ++ acc) []

/-- The output of a successful `gen_gptable` run: the laid-out items, the
final 128-slot entry array, the 4 protective/hybrid MBR entries, the
primary header, the backup header when `gpt_alternate` is set, and the
resolved last-usable/alternate LBAs. -/
structure GptOut where
  items : List GptItem := []
  entries : List GptEntry := []
  pte : List MbrPte := []
  header : Gpth := {}
  backup : Option Gpth := none
  lastUsable : Nat := 0
  endLBA : Nat := 0
deriving DecidableEq, Inhabited

/-- The backup header construction (ptgen.c lines 577-582): self/alternate
swapped, `first_entry` moved to `end - GPT_SIZE`, CRC zeroed and then
recomputed over the modified header. -/
def mkBackupGpth (hdr : Gpth) (endLBA : Nat) : Gpth :=
  let b0 : Gpth :=
    { hdr with
      self := hdr.alternate
      alternate := hdr.self
      first_entry := endLBA - GPT_SIZE
      crc32 := 0 }
  { b0 with crc32 := gpt_crc32 (gpthBytes b0) }

/-- `gen_gptable` (ptgen.c lines 407-618) up to the writes: the loop from
cursor `GPT_SIZE + gpt_first_entry_sector`, the BIOS-boot filler, the
derived last-usable sector (`sect - 1` when no disk size was configured),
the protective entry `pte[0]` of type 0xEE spanning LBA 1 through the
alternate-header LBA, the primary header whose entry-array CRC is computed
first and whose own CRC is computed while its CRC field is still zero, and
the backup header when `gpt_alternate` is set. -/
def gen_gptable (cfg : Cfg) (guid : List Nat) (parts : List Partinfo) :
    Except PtgenErr GptOut :=
  match gptableLoop cfg guid parts 0 (GPT_SIZE + cfg.gpt_first_entry_sector) with
  | .error e => .error e
  | .ok (items, sect) =>
    let arr := applyFiller cfg guid parts items (entriesArrOf items)
    let glus := if cfg.gpt_last_usable_sector = 0 then sect - 1
      else cfg.gpt_last_usable_sector
    let endLBA := glus + GPT_SIZE + 1
    let pte0 : MbrPte :=
      { active := 0
        ptype := 0xEE
        chs_start := to_chs cfg 1
        chs_end := to_chs cfg endLBA
        start := 1
        length := (endLBA + 1 - 1) % 2 ^ 32 }
    let pteArr := (hybridPteFold cfg (List.replicate 4 zeroPte) 1 items).set 0 pte0
    let h0 : Gpth :=
      { signature := 0x5452415020494645
        revision := 0x00010000
        size := 92
        crc32 := 0
        reserved := 0
        self := 1
        alternate := endLBA
        first_usable := cfg.gpt_first_entry_sector + GPT_SIZE
        last_usable := glus
        disk_guid := guid
        first_entry := cfg.gpt_first_entry_sector
        entry_num := 128
        entry_size := 128
        entry_crc32 := gpt_crc32 (entriesBytes arr) }
    let hdr := { h0 with crc32 := gpt_crc32 (gpthBytes h0) }
    .ok
      { items := items
        entries := arr
        pte := pteArr
        header := hdr
        backup := if cfg.gpt_alternate then some (mkBackupGpth hdr endLBA) else none
        lastUsable := glus
        endLBA := endLBA }

/-- The successful result of a GPT build (builders are only inspected on
success; on error nothing is emitted). -/
def gptOutOf (r : Except PtgenErr GptOut) : GptOut :=
  match r with
  | .ok o => o
  | .error _ => default

/-- The successful item list of an MBR build. -/
def mbrItemsOf (r : Except PtgenErr (List MbrItem)) : List MbrItem :=
  match r with
  | .ok l => l
  | .error _ => []

/-- The clamping of the active-partition index in `main`
(ptgen.c lines 786-789): out-of-range values are reset to 0. -/
def clampActive (use_guid_partition_table : Bool) (active : Int) : Int :=
  if (use_guid_partition_table = true ∧ 128 < active) ∨
      (use_guid_partition_table = false ∧ 4 < active) ∨ active < 0 then 0
  else active

/-- Whether a builder run succeeded (exit status 0 and tables emitted). -/
def exceptOk {ε α : Type} (r : Except ε α) : Bool :=
  match r with
  | .ok _ => true
  | .error _ => false

/-- The per-item (start, length-in-sectors) projection of an MBR run: the
layout proper, as reported on stdout (scaled by the sector size there). -/
def mbrLayout (r : Except PtgenErr (List MbrItem)) :
    Except PtgenErr (List (Nat × Nat)) :=
  r.map (·.map (fun it => (it.start, it.len)))

/-- The per-item (start, size-in-KByte) projection of a GPT run. -/
def gptLayout (r : Except PtgenErr GptOut) :
    Except PtgenErr (List (Nat × Nat)) :=
  r.map (fun o => o.items.map (fun it => (it.start, it.size)))

/-- The start sectors computed by a run of the MBR loop. -/
def mbrStartsFrom (cfg : Cfg) (parts : List Partinfo) (i sect : Nat) :
    Except PtgenErr (List Nat) :=
  (ptableLoop cfg parts i sect).map (·.1.map (·.start))

/-- The start sectors computed by a run of the GPT loop. -/
def gptStartsFrom (cfg : Cfg) (guid : List Nat) (parts : List Partinfo)
    (i sect : Nat) : Except PtgenErr (List Nat) :=
  (gptableLoop cfg guid parts i sect).map (·.1.map (·.start))

/-- MBR geometry 16 heads, 63 sectors per track, no active partition, used
by the concrete witnesses below (spec scenario A geometry). -/
def mbrExCfg : Cfg := { heads := 16, sectors := 63, active := 0 }

/-- GPT geometry as forced by `main` (heads 254, sectors 63). -/
def gptExCfg : Cfg := { heads := 254, sectors := 63, active := 0 }

/-- GPT configuration with the backup (alternate) table enabled. -/
def gptAltExCfg : Cfg :=
  { heads := 254, sectors := 63, active := 0, gpt_alternate := true }

/-- A concrete disk GUID image for the witnesses. -/
def exGuid : List Nat := (List.range 16).map (· + 1)

/-- A request of `sz` KByte at explicit start `st` KByte (0 = none). -/
def mkPart (sz st : Nat) : Partinfo := { size := sz, start := st }

/-- A hybrid-flagged request of `sz` KByte, legacy type 0x83. -/
def mkHybridPart (sz : Nat) : Partinfo :=
  { size := sz, hybrid := true, ptype := 0x83 }

end Ptgen

namespace Ptgen

/-! ### Arithmetic of `round_to_cyl`, `round_to_kb` and the MBR cursor -/

theorem round_to_cyl_def (cfg : Cfg) (s : Nat) :
    round_to_cyl cfg s =
      s + cfg.heads * cfg.sectors - s % (cfg.heads * cfg.sectors) := rfl

theorem round_to_cyl_lt (cfg : Cfg) (s : Nat)
    (hc : 0 < cfg.heads * cfg.sectors) : s < round_to_cyl cfg s := by
  have hm := Nat.mod_lt s hc
  rw [round_to_cyl_def]
  omega

theorem round_to_cyl_mod (cfg : Cfg) (s : Nat)
    (hc : 0 < cfg.heads * cfg.sectors) :
    round_to_cyl cfg s % (cfg.heads * cfg.sectors) = 0 := by
  set c := cfg.heads * cfg.sectors with hcdef
  have hdm := Nat.div_add_mod s c
  have hm := Nat.mod_lt s hc
  have hrc : round_to_cyl cfg s = c * (s / c + 1) := by
    rw [round_to_cyl_def, Nat.mul_add, Nat.mul_one, ← hcdef]
    omega
  rw [hrc]
  exact Nat.mul_mod_right c _

theorem round_to_kb_ge (cfg : Cfg) (x : Nat) (hk : 0 < cfg.kb_align) :
    x ≤ round_to_kb cfg x := by
  unfold round_to_kb
  have h := Nat.div_add_mod (x - 1) cfg.kb_align
  have h2 : (x - 1) % cfg.kb_align < cfg.kb_align := Nat.mod_lt _ hk
  have h3 : ((x - 1) / cfg.kb_align + 1) * cfg.kb_align =
      cfg.kb_align * ((x - 1) / cfg.kb_align) + cfg.kb_align := by ring
  rw [h3]
  omega

/-- With no overlap error, the computed MBR start is at least one track
past the cursor (it is exactly that, possibly rounded up, or an explicit
start already checked to be at least that). -/
theorem mbrStart_ge (cfg : Cfg) (p : Partinfo) (sect : Nat)
    (hov : ¬(p.start ≠ 0 ∧ p.start * 2 < sect + cfg.sectors)) :
    sect + cfg.sectors ≤ mbrStart cfg p sect := by
  unfold mbrStart
  by_cases he : p.start ≠ 0
  · rw [if_pos he]
    omega
  · rw [if_neg he]
    by_cases hk : cfg.kb_align ≠ 0
    · rw [if_pos hk]
      exact round_to_kb_ge cfg _ (Nat.pos_of_ne_zero hk)
    · rw [if_neg hk]

/-- In unaligned mode with positive cylinder size, the cursor after a
laid-out MBR partition strictly exceeds the cursor before it. -/
theorem mbrNext_gt (cfg : Cfg) (p : Partinfo) (sect : Nat)
    (hkb : cfg.kb_align = 0) (hc : 0 < cfg.heads * cfg.sectors)
    (hov : ¬(p.start ≠ 0 ∧ p.start * 2 < sect + cfg.sectors)) :
    sect < mbrNext cfg p sect := by
  have h1 := mbrStart_ge cfg p sect hov
  have h2 := round_to_cyl_lt cfg (mbrStart cfg p sect + p.size * 2) hc
  unfold mbrNext
  rw [if_pos hkb]
  omega

/-- The laid-out step of the MBR loop, unfolded. -/
theorem ptableLoop_cons_lay (cfg : Cfg) (p : Partinfo) (rest : List Partinfo)
    (i sect : Nat) (hz : p.size ≠ 0)
    (hov : ¬(p.start ≠ 0 ∧ p.start * 2 < sect + cfg.sectors)) :
    ptableLoop cfg (p :: rest) i sect =
      (ptableLoop cfg rest (i + 1) (mbrNext cfg p sect)).map
        (fun r =>
          ((⟨i, mbrStart cfg p sect, mbrNext cfg p sect - mbrStart cfg p sect,
            mkMbrPte cfg i (mbrStart cfg p sect)
              (mbrNext cfg p sect - mbrStart cfg p sect) p⟩ :
            MbrItem) :: r.1, r.2)) := by
  simp [ptableLoop, hz, hov]

/-- With the cylinder size positive and unaligned mode, a successful MBR
loop run never decreases the cursor. -/
theorem ptableLoop_sect_mono (cfg : Cfg) (hc : 0 < cfg.heads * cfg.sectors)
    (hkb : cfg.kb_align = 0) :
    ∀ (parts : List Partinfo) (i sect : Nat) (r : List MbrItem × Nat),
      ptableLoop cfg parts i sect = .ok r → sect ≤ r.2 := by
  intro parts
  induction parts with
  | nil =>
    intro i sect r h
    simp only [ptableLoop] at h
    cases h
    exact Nat.le_refl _
  | cons p rest ih =>
    intro i sect r h
    by_cases hz : p.size = 0
    · simp only [ptableLoop, hz, if_true, if_pos rfl] at h
      by_cases hig : cfg.ignore_null_sized_partition
      · rw [if_pos hig] at h
        exact ih _ _ _ h
      · rw [if_neg hig] at h
        cases h
    · by_cases hov : p.start ≠ 0 ∧ p.start * 2 < sect + cfg.sectors
      · simp only [ptableLoop, hz, if_neg hz, if_pos hov] at h
        cases h
      · rw [ptableLoop_cons_lay cfg p rest i sect hz hov] at h
        cases hrest : ptableLoop cfg rest (i + 1) (mbrNext cfg p sect) with
        | error e => rw [hrest] at h; cases h
        | ok r' =>
          rw [hrest] at h
          simp only [Except.map, Except.ok.injEq] at h
          have h2 := ih _ _ _ hrest
          have h3 := mbrNext_gt cfg p sect hkb hc hov
          have h4 : r'.2 = r.2 := by rw [← h]
          omega

/-- Claim C10: for every sector value, provided the cylinder size
(heads x sectors-per-track) is positive, `round_to_cyl` returns a strictly
larger multiple of the cylinder size; a sector already on a cylinder
boundary is advanced by one full cylinder, never returned unchanged; and
in unaligned MBR mode the cursor strictly increases after every laid-out
partition (so the final cursor of any successful loop run beginning with a
laid-out request strictly exceeds the initial cursor). -/
theorem claim10_round_to_cyl (cfg : Cfg) (s : Nat)
    (hc : 0 < cfg.heads * cfg.sectors) :
    round_to_cyl cfg s % (cfg.heads * cfg.sectors) = 0 ∧
    s < round_to_cyl cfg s ∧
    (s % (cfg.heads * cfg.sectors) = 0 →
      round_to_cyl cfg s = s + cfg.heads * cfg.sectors) ∧
    (∀ (p : Partinfo) (rest : List Partinfo) (i : Nat)
        (r : List MbrItem × Nat), cfg.kb_align = 0 → p.size ≠ 0 →
      ptableLoop cfg (p :: rest) i s = .ok r → s < r.2) := by
  refine ⟨round_to_cyl_mod cfg s hc, round_to_cyl_lt cfg s hc, ?_, ?_⟩
  · intro hb
    rw [round_to_cyl_def, hb]
    omega
  · intro p rest i r hkb hz h
    by_cases hov : p.start ≠ 0 ∧ p.start * 2 < s + cfg.sectors
    · simp only [ptableLoop, hz, if_neg hz, if_pos hov] at h
      cases h
    · rw [ptableLoop_cons_lay cfg p rest i s hz hov] at h
      cases hrest : ptableLoop cfg rest (i + 1) (mbrNext cfg p s) with
      | error e => rw [hrest] at h; cases h
      | ok r' =>
        rw [hrest] at h
        simp only [Except.map, Except.ok.injEq] at h
        have h2 := ptableLoop_sect_mono cfg hc hkb _ _ _ _ hrest
        have h3 := mbrNext_gt cfg p s hkb hc hov
        have h4 : r'.2 = r.2 := by rw [← h]
        omega

/-- Witness for claim C10 at the scenario-A geometry (16 heads, 63 sectors
per track, cylinder 1008): sector 2111 rounds up to a strictly larger
cylinder multiple, and the two-partition unaligned run from cursor 0 ends
at a cursor strictly above 0. -/
theorem claim10_witness :
    round_to_cyl mbrExCfg 2111 % (mbrExCfg.heads * mbrExCfg.sectors) = 0 ∧
    (2111 : Nat) < round_to_cyl mbrExCfg 2111 ∧
    (0 : Nat) < 8064 := by
  have h := claim10_round_to_cyl mbrExCfg 2111 (by decide)
  have h2 := claim10_round_to_cyl mbrExCfg 0 (by decide)
  have h3 := h2.2.2.2 (mkPart 1024 0) [mkPart 2048 0] 0
    ⟨[⟨0, 63, 2961, mkMbrPte mbrExCfg 0 63 2961 (mkPart 1024 0)⟩,
      ⟨1, 3087, 4977, mkMbrPte mbrExCfg 1 3087 4977 (mkPart 2048 0)⟩], 8064⟩
    rfl (by decide) rfl
  exact ⟨h.1, h.2.1, h3⟩

end Ptgen

namespace Ptgen

/-! ### The UTF-8 to UTF-16LE name encoder -/

theorem byte_lead1 : ∀ b < 128, b &&& 0x80 = 0 := by decide

set_option maxRecDepth 2000 in
theorem byte_lead2 : ∀ b < 256, b &&& 0xE0 = 0xC0 → b ≠ 0 ∧ b &&& 0x80 ≠ 0 := by
  decide

set_option maxRecDepth 2000 in
theorem byte_lead3 : ∀ b < 256, b &&& 0xF0 = 0xE0 →
    b ≠ 0 ∧ b &&& 0x80 ≠ 0 ∧ b &&& 0xE0 ≠ 0xC0 := by decide

/-- ASCII bytes are copied one-to-one, and the terminating 0 unit is
written, so decoding (reading each unit back as one byte) recovers the
original string. -/
theorem init_utf16_ascii (str : List Nat) :
    ∀ bufsize : Nat, (∀ b ∈ str, 0 < b ∧ b < 128) → str.length < bufsize →
      init_utf16 str bufsize = str ++ [0] := by
  induction str with
  | nil =>
    intro bufsize _ hl
    cases bufsize with
    | zero => omega
    | succ k => simp [init_utf16, init_utf16_go]
  | cons b rest ih =>
    intro bufsize hb hl
    cases bufsize with
    | zero => omega
    | succ k =>
      have hb0 := hb b (List.mem_cons_self b rest)
      have h80 := byte_lead1 b hb0.2
      have hne : ¬ b = 0 := by omega
      have htail := ih k (fun x hx => hb x (List.mem_cons_of_mem b hx))
        (by simpa using Nat.lt_of_succ_lt_succ hl)
      simp only [init_utf16, init_utf16_go, if_neg hne, h80, if_pos rfl] at *
      simp [htail]

/-- Claim C5: the UTF-8 to UTF-16LE name encoder handles 1-, 2- and 3-byte
sequences; encoding an ASCII-only name (and reading each emitted unit back
as a byte) yields the original string; and any unrecognized lead byte,
including the lead byte of a 4-byte sequence, produces exactly one `?`
(0x3F) unit while the encoder advances exactly one input byte, so the
remaining output is the encoding of the remaining input, unshifted. -/
theorem claim5_init_utf16 :
    (∀ (str : List Nat) (bufsize : Nat), (∀ b ∈ str, 0 < b ∧ b < 128) →
      str.length < bufsize → init_utf16 str bufsize = str ++ [0]) ∧
    (∀ (b : Nat) (rest : List Nat) (bufsize : Nat), b < 256 →
      b &&& 0xE0 = 0xC0 →
      init_utf16_go (bufsize + 1) (b :: rest) =
        (((b &&& 0x1F) <<< 6) ||| (rest.getD 0 0 &&& 0x3F)) ::
          init_utf16_go bufsize (rest.drop 1)) ∧
    (∀ (b : Nat) (rest : List Nat) (bufsize : Nat), b < 256 →
      b &&& 0xF0 = 0xE0 →
      init_utf16_go (bufsize + 1) (b :: rest) =
        (((b &&& 0x0F) <<< 12) ||| ((rest.getD 0 0 &&& 0x3F) <<< 6) |||
            (rest.getD 1 0 &&& 0x3F)) ::
          init_utf16_go bufsize (rest.drop 2)) ∧
    (∀ (b : Nat) (rest : List Nat) (bufsize : Nat), b ≠ 0 →
      b &&& 0x80 ≠ 0 → b &&& 0xE0 ≠ 0xC0 → b &&& 0xF0 ≠ 0xE0 →
      init_utf16_go (bufsize + 1) (b :: rest) =
        0x3F :: init_utf16_go bufsize rest) := by
  refine ⟨init_utf16_ascii, ?_, ?_, ?_⟩
  · intro b rest bufsize hlt h
    obtain ⟨hne, h80⟩ := byte_lead2 b hlt h
    simp [init_utf16_go, hne, h80, h]
  · intro b rest bufsize hlt h
    obtain ⟨hne, h80, hc0⟩ := byte_lead3 b hlt h
    simp [init_utf16_go, hne, h80, hc0, h]
  · intro b rest bufsize hne h80 hc0 he0
    simp [init_utf16_go, hne, h80, hc0, he0]

/-- Witness for claim C5: the ASCII name "pt" round-trips; the 2-byte
sequence C3 A9 and the 3-byte sequence E6 97 A5 are decoded with the
documented bit packing; the 4-byte lead F0 yields one `?` and leaves the
following bytes to be encoded in place. -/
theorem claim5_witness :
    init_utf16 [0x70, 0x74] 36 = [0x70, 0x74, 0] ∧
    init_utf16_go 6 (0xC3 :: [0xA9]) =
      (((0xC3 &&& 0x1F) <<< 6) ||| ([0xA9].getD 0 0 &&& 0x3F)) ::
        init_utf16_go 5 ([0xA9].drop 1) ∧
    init_utf16_go 6 (0xE6 :: [0x97, 0xA5]) =
      (((0xE6 &&& 0x0F) <<< 12) ||| (([0x97, 0xA5].getD 0 0 &&& 0x3F) <<< 6) |||
          ([0x97, 0xA5].getD 1 0 &&& 0x3F)) ::
        init_utf16_go 5 ([0x97, 0xA5].drop 2) ∧
    init_utf16_go 6 (0xF0 :: [0x9F, 0x98, 0x80]) =
      0x3F :: init_utf16_go 5 [0x9F, 0x98, 0x80] :=
  ⟨claim5_init_utf16.1 [0x70, 0x74] 36 (by decide) (by decide),
   claim5_init_utf16.2.1 0xC3 [0xA9] 5 (by decide) (by decide),
   claim5_init_utf16.2.2.1 0xE6 [0x97, 0xA5] 5 (by decide) (by decide),
   claim5_init_utf16.2.2.2 0xF0 [0x9F, 0x98, 0x80] 5 (by decide) (by decide)
     (by decide) (by decide)⟩

end Ptgen

namespace Ptgen

/-! ### The layout cursor (claims C1 and C2) -/

theorem mbrStart_default (cfg : Cfg) (p : Partinfo) (sect : Nat)
    (hs : p.start = 0) (hkb : cfg.kb_align = 0) :
    mbrStart cfg p sect = sect + cfg.sectors := by
  simp [mbrStart, hs, hkb]

theorem mbrStart_explicit (cfg : Cfg) (p : Partinfo) (sect : Nat)
    (hs : p.start ≠ 0) : mbrStart cfg p sect = p.start * 2 := by
  simp [mbrStart, hs]

theorem mbrNext_unaligned (cfg : Cfg) (p : Partinfo) (sect : Nat)
    (hs : p.start = 0) (hkb : cfg.kb_align = 0) :
    mbrNext cfg p sect = round_to_cyl cfg (sect + cfg.sectors + p.size * 2) := by
  simp [mbrNext, hkb, mbrStart_default cfg p sect hs hkb]

theorem gptStart_default (cfg : Cfg) (p : Partinfo) (sect : Nat)
    (hs : p.start = 0) (hkb : cfg.kb_align = 0) :
    gptStart cfg p sect = sect := by
  simp [gptStart, hs, hkb]

theorem gptStart_explicit (cfg : Cfg) (p : Partinfo) (sect : Nat)
    (hs : p.start ≠ 0) : gptStart cfg p sect = p.start * 2 := by
  simp [gptStart, hs]

/-- The laid-out step of the GPT loop, unfolded. -/
theorem gptableLoop_cons_lay (cfg : Cfg) (guid : List Nat) (p : Partinfo)
    (rest : List Partinfo) (i sect : Nat) (hz : p.size ≠ 0)
    (hov : ¬(p.start ≠ 0 ∧ p.start * 2 < sect))
    (hgl : ¬(0 < cfg.gpt_last_usable_sector ∧
      cfg.gpt_last_usable_sector + 1 < gptStart cfg p sect + p.size * 2)) :
    gptableLoop cfg guid (p :: rest) i sect =
      (gptableLoop cfg guid rest (i + 1) (gptStart cfg p sect + p.size * 2)).map
        (fun r =>
          ((⟨i, gptStart cfg p sect, p.size, p.hybrid, p.ptype,
            mkGpte cfg guid i (gptStart cfg p sect) p⟩ :
            GptItem) :: r.1, r.2)) := by
  simp [gptableLoop, hz, hov, hgl]

/-- Counterexample to claim C1: two unaligned MBR requests of 1024 KB and
2048 KB on 16-head/63-sector geometry.  Under the claim, the cursor is one
track (63) for the first partition and afterwards equals its end
63 + 2048 = 2111, which should be the second partition's start; the code
computes 3087 (the cylinder-rounded end 3024 plus another full track). -/
theorem claim1_counterexample :
    (gen_ptable mbrExCfg [mkPart 1024 0, mkPart 2048 0]).map (·.map (·.start)) =
      .ok [63, 3087] ∧
    ¬ ((63 + 1024 * 2 : Nat) = 3087) := by
  exact ⟨rfl, by decide⟩

/-- Claim C1, amended: for GPT the claim holds as stated: the cursor is
initialized to the first-usable LBA (first-entry sector + entry-array
size), a request with no explicit start and alignment disabled starts
exactly at the cursor, and afterwards the cursor is that partition's end
(start + size in sectors).  For MBR the code instead initializes the
cursor to 0 and adds one track (sectors-per-track) to every default start
— so the first start is one track, as claimed — and after each laid-out
partition the unaligned cursor is the cylinder-rounding of start + size,
not start + size itself. -/
theorem claim1_amended :
    (∀ (cfg : Cfg) (parts : List Partinfo),
      (gen_ptable cfg parts).map (·.map (·.start)) = mbrStartsFrom cfg parts 0 0) ∧
    (∀ (cfg : Cfg) (p : Partinfo) (rest : List Partinfo) (i sect : Nat),
      p.size ≠ 0 → p.start = 0 → cfg.kb_align = 0 →
      mbrStartsFrom cfg (p :: rest) i sect =
        (mbrStartsFrom cfg rest (i + 1)
            (round_to_cyl cfg (sect + cfg.sectors + p.size * 2))).map
          (fun l => (sect + cfg.sectors) :: l)) ∧
    (∀ (cfg : Cfg) (guid : List Nat) (parts : List Partinfo),
      (gen_gptable cfg guid parts).map (fun o => o.items.map (·.start)) =
        gptStartsFrom cfg guid parts 0 (GPT_SIZE + cfg.gpt_first_entry_sector)) ∧
    (∀ (cfg : Cfg) (guid : List Nat) (p : Partinfo) (rest : List Partinfo)
        (i sect : Nat),
      p.size ≠ 0 → p.start = 0 → cfg.kb_align = 0 →
      ¬(0 < cfg.gpt_last_usable_sector ∧
        cfg.gpt_last_usable_sector + 1 < sect + p.size * 2) →
      gptStartsFrom cfg guid (p :: rest) i sect =
        (gptStartsFrom cfg guid rest (i + 1) (sect + p.size * 2)).map
          (fun l => sect :: l)) := by
  refine ⟨?_, ?_, ?_, ?_⟩
  · intro cfg parts
    unfold gen_ptable mbrStartsFrom
    cases ptableLoop cfg parts 0 0 <;> rfl
  · intro cfg p rest i sect hz hs hkb
    unfold mbrStartsFrom
    rw [ptableLoop_cons_lay cfg p rest i sect hz (by simp [hs]),
      mbrNext_unaligned cfg p sect hs hkb, mbrStart_default cfg p sect hs hkb]
    cases ptableLoop cfg rest (i + 1)
        (round_to_cyl cfg (sect + cfg.sectors + p.size * 2)) <;>
      simp [Except.map]
  · intro cfg guid parts
    unfold gen_gptable gptStartsFrom
    cases gptableLoop cfg guid parts 0 (GPT_SIZE + cfg.gpt_first_entry_sector) <;>
      rfl
  · intro cfg guid p rest i sect hz hs hkb hgl
    unfold gptStartsFrom
    rw [gptableLoop_cons_lay cfg guid p rest i sect hz (by simp [hs])
      (by rwa [gptStart_default cfg p sect hs hkb]),
      gptStart_default cfg p sect hs hkb]
    cases gptableLoop cfg guid rest (i + 1) (sect + p.size * 2) <;>
      simp [Except.map]

/-- Witness for the amended claim C1: one concrete unaligned step of each
loop.  The MBR step from cursor 0 starts at one track (63) and continues
from the cylinder-rounded end 3024; the GPT step from cursor 34 starts at
34 and continues from 34 + 2048. -/
theorem claim1_amended_witness :
    mbrStartsFrom mbrExCfg (mkPart 1024 0 :: []) 0 0 =
      (mbrStartsFrom mbrExCfg [] 1
          (round_to_cyl mbrExCfg (0 + mbrExCfg.sectors + 1024 * 2))).map
        (fun l => (0 + mbrExCfg.sectors) :: l) ∧
    gptStartsFrom gptExCfg exGuid (mkPart 1024 0 :: []) 0 34 =
      (gptStartsFrom gptExCfg exGuid [] 1 (34 + 1024 * 2)).map
        (fun l => 34 :: l) :=
  ⟨claim1_amended.2.1 mbrExCfg (mkPart 1024 0) [] 0 0 (by decide) (by decide) rfl,
   claim1_amended.2.2.2 gptExCfg exGuid (mkPart 1024 0) [] 0 34 (by decide)
     (by decide) rfl (by decide)⟩

/-- Counterexample to claim C2: after an unaligned 1024 KB MBR partition
(start 63, end 2111), a second request with explicit start 1100 KB = 2200
sectors resolves at or above the claim's cursor (2111, the first
partition's end), so under the claim the run should succeed with start
2200; the code fails the run because 2200 is below its actual threshold
3087 (cylinder-rounded end plus one track). -/
theorem claim2_counterexample :
    gen_ptable mbrExCfg [mkPart 1024 0, mkPart 1024 1100] =
      .error .invalidStart ∧
    (63 + 1024 * 2 : Nat) ≤ 1100 * 2 := by
  exact ⟨rfl, by decide⟩

/-- Claim C2, amended: for GPT the claim holds as stated: an explicit
start resolving below the cursor fails the whole run with the
invalid-start error, otherwise the partition starts exactly at the
explicit value (KByte value times 2).  For MBR the comparison point is
not the cursor but the default start, i.e. the cursor plus one track
(sectors-per-track): an explicit start below `sect + sectors` fails the
run, one at or above it is used exactly.  Loop errors are the result of
the whole build, so no table is emitted. -/
theorem claim2_amended :
    (∀ (cfg : Cfg) (p : Partinfo) (rest : List Partinfo) (i sect : Nat),
      p.size ≠ 0 → p.start ≠ 0 → p.start * 2 < sect + cfg.sectors →
      ptableLoop cfg (p :: rest) i sect = .error .invalidStart) ∧
    (∀ (cfg : Cfg) (p : Partinfo) (rest : List Partinfo) (i sect : Nat)
        (r : List MbrItem × Nat),
      p.size ≠ 0 → p.start ≠ 0 → sect + cfg.sectors ≤ p.start * 2 →
      ptableLoop cfg (p :: rest) i sect = .ok r →
      (r.1.headD default).start = p.start * 2) ∧
    (∀ (cfg : Cfg) (guid : List Nat) (p : Partinfo) (rest : List Partinfo)
        (i sect : Nat),
      p.size ≠ 0 → p.start ≠ 0 → p.start * 2 < sect →
      gptableLoop cfg guid (p :: rest) i sect = .error .invalidStart) ∧
    (∀ (cfg : Cfg) (guid : List Nat) (p : Partinfo) (rest : List Partinfo)
        (i sect : Nat) (r : List GptItem × Nat),
      p.size ≠ 0 → p.start ≠ 0 → sect ≤ p.start * 2 →
      gptableLoop cfg guid (p :: rest) i sect = .ok r →
      (r.1.headD default).start = p.start * 2) ∧
    (∀ (cfg : Cfg) (parts : List Partinfo) (e : PtgenErr),
      ptableLoop cfg parts 0 0 = .error e → gen_ptable cfg parts = .error e) ∧
    (∀ (cfg : Cfg) (guid : List Nat) (parts : List Partinfo) (e : PtgenErr),
      gptableLoop cfg guid parts 0 (GPT_SIZE + cfg.gpt_first_entry_sector) =
        .error e → gen_gptable cfg guid parts = .error e) := by
  refine ⟨?_, ?_, ?_, ?_, ?_, ?_⟩
  · intro cfg p rest i sect hz hs hlt
    simp [ptableLoop, hz, hs, hlt]
  · intro cfg p rest i sect r hz hs hge h
    have hov : ¬(p.start ≠ 0 ∧ p.start * 2 < sect + cfg.sectors) := by
      intro hcon
      omega
    rw [ptableLoop_cons_lay cfg p rest i sect hz hov] at h
    cases hr : ptableLoop cfg rest (i + 1) (mbrNext cfg p sect) with
    | error e => rw [hr] at h; cases h
    | ok r' =>
      rw [hr] at h
      simp only [Except.map, Except.ok.injEq] at h
      rw [← h]
      simp [mbrStart_explicit cfg p sect hs]
  · intro cfg guid p rest i sect hz hs hlt
    simp [gptableLoop, hz, hs, hlt]
  · intro cfg guid p rest i sect r hz hs hge h
    have hov : ¬(p.start ≠ 0 ∧ p.start * 2 < sect) := by
      intro hcon
      omega
    by_cases hgl : 0 < cfg.gpt_last_usable_sector ∧
        cfg.gpt_last_usable_sector + 1 < gptStart cfg p sect + p.size * 2
    · simp [gptableLoop, hz, hov, hgl] at h
    · rw [gptableLoop_cons_lay cfg guid p rest i sect hz hov hgl] at h
      cases hr : gptableLoop cfg guid rest (i + 1)
          (gptStart cfg p sect + p.size * 2) with
      | error e => rw [hr] at h; cases h
      | ok r' =>
        rw [hr] at h
        simp only [Except.map, Except.ok.injEq] at h
        rw [← h]
        simp [gptStart_explicit cfg p sect hs]
  · intro cfg parts e h
    unfold gen_ptable
    rw [h]
    rfl
  · intro cfg guid parts e h
    unfold gen_gptable
    rw [h]

end Ptgen

namespace Ptgen

/-- Witness for the amended claim C2: an explicit start of 1 KB below the
MBR threshold fails the run; an explicit start of 1600 KB at or above the
threshold is used exactly; an explicit GPT start of 10 KB below the cursor
34 fails the run. -/
theorem claim2_amended_witness :
    ptableLoop mbrExCfg [mkPart 1024 1] 1 3024 = .error .invalidStart ∧
    (((⟨[⟨0, 3200, 2848, mkMbrPte mbrExCfg 0 3200 2848 (mkPart 1024 1600)⟩],
        6048⟩ : List MbrItem × Nat).1.headD default).start = 1600 * 2) ∧
    gptableLoop gptExCfg exGuid [mkPart 1024 10] 0 34 = .error .invalidStart :=
  ⟨claim2_amended.1 mbrExCfg (mkPart 1024 1) [] 1 3024 (by decide) (by decide)
      (by decide),
   claim2_amended.2.1 mbrExCfg (mkPart 1024 1600) [] 0 3024
      ⟨[⟨0, 3200, 2848, mkMbrPte mbrExCfg 0 3200 2848 (mkPart 1024 1600)⟩], 6048⟩
      (by decide) (by decide) (by decide) rfl,
   claim2_amended.2.2.1 gptExCfg exGuid (mkPart 1024 10) [] 0 34 (by decide)
      (by decide) (by decide)⟩

/-! ### Zero-sized requests (claim C3) -/

theorem exceptOk_map {ε α β : Type} (f : α → β) (x : Except ε α) :
    exceptOk (x.map f) = exceptOk x := by
  cases x <;> rfl

/-- With the skip policy unset, any request list containing a zero-sized
request makes the MBR loop fail (with one of the error outcomes). -/
theorem ptableLoop_fail_of_zero (cfg : Cfg)
    (hig : cfg.ignore_null_sized_partition = false) :
    ∀ (parts : List Partinfo), (∃ p ∈ parts, p.size = 0) →
      ∀ (i sect : Nat), exceptOk (ptableLoop cfg parts i sect) = false := by
  intro parts
  induction parts with
  | nil =>
    intro hex
    obtain ⟨p, hp, _⟩ := hex
    cases hp
  | cons p rest ih =>
    intro hex i sect
    by_cases hz : p.size = 0
    · simp [ptableLoop, hz, hig, exceptOk]
    · obtain ⟨q, hq, hqz⟩ := hex
      have hqrest : q ∈ rest := by
        cases hq with
        | head => exact absurd hqz hz
        | tail _ h => exact h
      by_cases hov : p.start ≠ 0 ∧ p.start * 2 < sect + cfg.sectors
      · simp [ptableLoop, hz, hov, exceptOk]
      · rw [ptableLoop_cons_lay cfg p rest i sect hz hov, exceptOk_map]
        exact ih ⟨q, hqrest, hqz⟩ _ _

/-- With the skip policy unset, any request list containing a zero-sized
request makes the GPT loop fail (with one of the error outcomes). -/
theorem gptableLoop_fail_of_zero (cfg : Cfg) (guid : List Nat)
    (hig : cfg.ignore_null_sized_partition = false) :
    ∀ (parts : List Partinfo), (∃ p ∈ parts, p.size = 0) →
      ∀ (i sect : Nat), exceptOk (gptableLoop cfg guid parts i sect) = false := by
  intro parts
  induction parts with
  | nil =>
    intro hex
    obtain ⟨p, hp, _⟩ := hex
    cases hp
  | cons p rest ih =>
    intro hex i sect
    by_cases hz : p.size = 0
    · simp [gptableLoop, hz, hig, exceptOk]
    · obtain ⟨q, hq, hqz⟩ := hex
      have hqrest : q ∈ rest := by
        cases hq with
        | head => exact absurd hqz hz
        | tail _ h => exact h
      by_cases hov : p.start ≠ 0 ∧ p.start * 2 < sect
      · simp [gptableLoop, hz, hov, exceptOk]
      · by_cases hgl : 0 < cfg.gpt_last_usable_sector ∧
            cfg.gpt_last_usable_sector + 1 < gptStart cfg p sect + p.size * 2
        · simp [gptableLoop, hz, hov, hgl, exceptOk]
        · rw [gptableLoop_cons_lay cfg guid p rest i sect hz hov hgl,
            exceptOk_map]
          exact ih ⟨q, hqrest, hqz⟩ _ _

/-- With the skip policy set, the MBR loop computes the same
(start, length) sequence, the same final cursor and the same error outcome
on a request list and on that list with its zero-sized requests removed:
skipped requests change nothing but the preserved request indices. -/
theorem ptableLoop_filter (cfg : Cfg)
    (hig : cfg.ignore_null_sized_partition = true) :
    ∀ (parts : List Partinfo) (i i' sect : Nat),
      (ptableLoop cfg parts i sect).map
          (fun r => (r.1.map (fun it => (it.start, it.len)), r.2)) =
        (ptableLoop cfg (parts.filter (fun p => p.size ≠ 0)) i' sect).map
          (fun r => (r.1.map (fun it => (it.start, it.len)), r.2)) := by
  intro parts
  induction parts with
  | nil => intro i i' sect; rfl
  | cons p rest ih =>
    intro i i' sect
    by_cases hz : p.size = 0
    · have hf : (p :: rest).filter (fun p => p.size ≠ 0) =
          rest.filter (fun p => p.size ≠ 0) := by
        simp [List.filter_cons, hz]
      rw [hf]
      have hskip : ptableLoop cfg (p :: rest) i sect =
          ptableLoop cfg rest (i + 1) sect := by
        simp [ptableLoop, hz, hig]
      rw [hskip]
      exact ih (i + 1) i' sect
    · have hf : (p :: rest).filter (fun p => p.size ≠ 0) =
          p :: rest.filter (fun p => p.size ≠ 0) := by
        simp [List.filter_cons, hz]
      rw [hf]
      by_cases hov : p.start ≠ 0 ∧ p.start * 2 < sect + cfg.sectors
      · simp [ptableLoop, hz, hov]
      · rw [ptableLoop_cons_lay cfg p rest i sect hz hov,
          ptableLoop_cons_lay cfg p (rest.filter (fun p => p.size ≠ 0)) i' sect
            hz hov]
        have := ih (i + 1) (i' + 1) (mbrNext cfg p sect)
        cases hL : ptableLoop cfg rest (i + 1) (mbrNext cfg p sect) with
        | error e =>
          cases hR : ptableLoop cfg (rest.filter (fun p => p.size ≠ 0)) (i' + 1)
              (mbrNext cfg p sect) with
          | error e' =>
            rw [hL, hR] at this
            simp only [Except.map, Except.error.injEq] at this
            simp [Except.map, this]
          | ok r' =>
            rw [hL, hR] at this
            simp [Except.map] at this
        | ok r =>
          cases hR : ptableLoop cfg (rest.filter (fun p => p.size ≠ 0)) (i' + 1)
              (mbrNext cfg p sect) with
          | error e' =>
            rw [hL, hR] at this
            simp [Except.map] at this
          | ok r' =>
            rw [hL, hR] at this
            simp only [Except.map, Except.ok.injEq, Prod.mk.injEq] at this
            simp [Except.map, this.1, this.2]

/-- With the skip policy set, the GPT loop computes the same
(start, size) sequence, the same final cursor and the same error outcome
on a request list and on that list with its zero-sized requests removed. -/
theorem gptableLoop_filter (cfg : Cfg) (guid : List Nat)
    (hig : cfg.ignore_null_sized_partition = true) :
    ∀ (parts : List Partinfo) (i i' sect : Nat),
      (gptableLoop cfg guid parts i sect).map
          (fun r => (r.1.map (fun it => (it.start, it.size)), r.2)) =
        (gptableLoop cfg guid (parts.filter (fun p => p.size ≠ 0)) i' sect).map
          (fun r => (r.1.map (fun it => (it.start, it.size)), r.2)) := by
  intro parts
  induction parts with
  | nil => intro i i' sect; rfl
  | cons p rest ih =>
    intro i i' sect
    by_cases hz : p.size = 0
    · have hf : (p :: rest).filter (fun p => p.size ≠ 0) =
          rest.filter (fun p => p.size ≠ 0) := by
        simp [List.filter_cons, hz]
      rw [hf]
      have hskip : gptableLoop cfg guid (p :: rest) i sect =
          gptableLoop cfg guid rest (i + 1) sect := by
        simp [gptableLoop, hz, hig]
      rw [hskip]
      exact ih (i + 1) i' sect
    · have hf : (p :: rest).filter (fun p => p.size ≠ 0) =
          p :: rest.filter (fun p => p.size ≠ 0) := by
        simp [List.filter_cons, hz]
      rw [hf]
      by_cases hov : p.start ≠ 0 ∧ p.start * 2 < sect
      · simp [gptableLoop, hz, hov]
      · by_cases hgl : 0 < cfg.gpt_last_usable_sector ∧
            cfg.gpt_last_usable_sector + 1 < gptStart cfg p sect + p.size * 2
        · simp [gptableLoop, hz, hov, hgl]
        · rw [gptableLoop_cons_lay cfg guid p rest i sect hz hov hgl,
            gptableLoop_cons_lay cfg guid p (rest.filter (fun p => p.size ≠ 0))
              i' sect hz hov hgl]
          have := ih (i + 1) (i' + 1) (gptStart cfg p sect + p.size * 2)
          cases hL : gptableLoop cfg guid rest (i + 1)
              (gptStart cfg p sect + p.size * 2) with
          | error e =>
            cases hR : gptableLoop cfg guid (rest.filter (fun p => p.size ≠ 0))
                (i' + 1) (gptStart cfg p sect + p.size * 2) with
            | error e' =>
              rw [hL, hR] at this
              simp only [Except.map, Except.error.injEq] at this
              simp [Except.map, this]
            | ok r' =>
              rw [hL, hR] at this
              simp [Except.map] at this
          | ok r =>
            cases hR : gptableLoop cfg guid (rest.filter (fun p => p.size ≠ 0))
                (i' + 1) (gptStart cfg p sect + p.size * 2) with
            | error e' =>
              rw [hL, hR] at this
              simp [Except.map] at this
            | ok r' =>
              rw [hL, hR] at this
              simp only [Except.map, Except.ok.injEq, Prod.mk.injEq] at this
              simp [Except.map, this.1, this.2]

end Ptgen

namespace Ptgen

/-- Counterexample to claim C3: the list 1024 KB, 1024 KB at explicit
start 1 KB, 0 KB contains a zero-sized request and the skip policy is
unset, so under the claim the run should fail with the invalid-size error;
the code fails first on the second request's bad explicit start, so the
error is the invalid-start one. -/
theorem claim3_counterexample :
    ([mkPart 1024 0, mkPart 1024 1, mkPart 0 0].getD 2 default).size = 0 ∧
    mbrExCfg.ignore_null_sized_partition = false ∧
    gen_ptable mbrExCfg [mkPart 1024 0, mkPart 1024 1, mkPart 0 0] =
      .error .invalidStart ∧
    PtgenErr.invalidStart ≠ PtgenErr.invalidSize := by
  exact ⟨by decide, rfl, rfl, by decide⟩

/-- Claim C3, amended: with the skip policy unset, a request list
containing a zero-sized request always makes the run fail with no table
emitted, and the error is the invalid-size one whenever the zero-sized
request is reached (no earlier request having already failed the run).
With the skip policy set, a zero-sized request is omitted, leaving the
cursor unchanged, and the laid-out (start, length) sequence, final cursor
and error outcome are those of the request list with all zero-sized
requests removed. -/
theorem claim3_zero_size :
    (∀ (cfg : Cfg) (parts : List Partinfo),
      cfg.ignore_null_sized_partition = false → (∃ p ∈ parts, p.size = 0) →
      exceptOk (gen_ptable cfg parts) = false) ∧
    (∀ (cfg : Cfg) (guid : List Nat) (parts : List Partinfo),
      cfg.ignore_null_sized_partition = false → (∃ p ∈ parts, p.size = 0) →
      exceptOk (gen_gptable cfg guid parts) = false) ∧
    (∀ (cfg : Cfg) (z : Partinfo) (rest : List Partinfo) (i sect : Nat),
      z.size = 0 → cfg.ignore_null_sized_partition = false →
      ptableLoop cfg (z :: rest) i sect = .error .invalidSize) ∧
    (∀ (cfg : Cfg) (guid : List Nat) (z : Partinfo) (rest : List Partinfo)
        (i sect : Nat),
      z.size = 0 → cfg.ignore_null_sized_partition = false →
      gptableLoop cfg guid (z :: rest) i sect = .error .invalidSize) ∧
    (∀ (cfg : Cfg) (z : Partinfo) (rest : List Partinfo) (i sect : Nat),
      z.size = 0 → cfg.ignore_null_sized_partition = true →
      ptableLoop cfg (z :: rest) i sect = ptableLoop cfg rest (i + 1) sect) ∧
    (∀ (cfg : Cfg) (guid : List Nat) (z : Partinfo) (rest : List Partinfo)
        (i sect : Nat),
      z.size = 0 → cfg.ignore_null_sized_partition = true →
      gptableLoop cfg guid (z :: rest) i sect =
        gptableLoop cfg guid rest (i + 1) sect) ∧
    (∀ (cfg : Cfg) (parts : List Partinfo),
      cfg.ignore_null_sized_partition = true →
      mbrLayout (gen_ptable cfg parts) =
        mbrLayout (gen_ptable cfg (parts.filter (fun p => p.size ≠ 0)))) ∧
    (∀ (cfg : Cfg) (guid : List Nat) (parts : List Partinfo),
      cfg.ignore_null_sized_partition = true →
      gptLayout (gen_gptable cfg guid parts) =
        gptLayout (gen_gptable cfg guid (parts.filter (fun p => p.size ≠ 0)))) := by
  refine ⟨?_, ?_, ?_, ?_, ?_, ?_, ?_, ?_⟩
  · intro cfg parts hig hex
    unfold gen_ptable
    rw [exceptOk_map]
    exact ptableLoop_fail_of_zero cfg hig parts hex 0 0
  · intro cfg guid parts hig hex
    have h := gptableLoop_fail_of_zero cfg guid hig parts hex 0
      (GPT_SIZE + cfg.gpt_first_entry_sector)
    unfold gen_gptable
    cases hl : gptableLoop cfg guid parts 0 (GPT_SIZE + cfg.gpt_first_entry_sector) with
    | error e => rfl
    | ok r => rw [hl] at h; cases h
  · intro cfg z rest i sect hz hig
    simp [ptableLoop, hz, hig]
  · intro cfg guid z rest i sect hz hig
    simp [gptableLoop, hz, hig]
  · intro cfg z rest i sect hz hig
    simp [ptableLoop, hz, hig]
  · intro cfg guid z rest i sect hz hig
    simp [gptableLoop, hz, hig]
  · intro cfg parts hig
    unfold gen_ptable mbrLayout
    have h := ptableLoop_filter cfg hig parts 0 0 0
    cases hL : ptableLoop cfg parts 0 0 with
    | error e =>
      cases hR : ptableLoop cfg (parts.filter (fun p => p.size ≠ 0)) 0 0 with
      | error e' =>
        rw [hL, hR] at h
        simp only [Except.map, Except.error.injEq] at h
        simp [Except.map, h]
      | ok r' =>
        rw [hL, hR] at h
        simp [Except.map] at h
    | ok r =>
      cases hR : ptableLoop cfg (parts.filter (fun p => p.size ≠ 0)) 0 0 with
      | error e' =>
        rw [hL, hR] at h
        simp [Except.map] at h
      | ok r' =>
        rw [hL, hR] at h
        simp only [Except.map, Except.ok.injEq, Prod.mk.injEq] at h
        simp [Except.map, h.1]
  · intro cfg guid parts hig
    unfold gen_gptable gptLayout
    have h := gptableLoop_filter cfg guid hig parts 0 0
      (GPT_SIZE + cfg.gpt_first_entry_sector)
    cases hL : gptableLoop cfg guid parts 0
        (GPT_SIZE + cfg.gpt_first_entry_sector) with
    | error e =>
      cases hR : gptableLoop cfg guid (parts.filter (fun p => p.size ≠ 0)) 0
          (GPT_SIZE + cfg.gpt_first_entry_sector) with
      | error e' =>
        rw [hL, hR] at h
        simp only [Except.map, Except.error.injEq] at h
        simp [Except.map, h]
      | ok r' =>
        rw [hL, hR] at h
        simp [Except.map] at h
    | ok r =>
      cases hR : gptableLoop cfg guid (parts.filter (fun p => p.size ≠ 0)) 0
          (GPT_SIZE + cfg.gpt_first_entry_sector) with
      | error e' =>
        rw [hL, hR] at h
        simp [Except.map] at h
      | ok r' =>
        rw [hL, hR] at h
        simp only [Except.map, Except.ok.injEq, Prod.mk.injEq] at h
        simp [Except.map, h.1]

/-- Witness for the amended claim C3: a zero-sized request with the skip
policy unset makes the concrete run fail; with the skip policy set the
zero-sized request is dropped and the layout is the one of the filtered
list. -/
theorem claim3_witness :
    exceptOk (gen_ptable mbrExCfg [mkPart 1024 0, mkPart 0 0]) = false ∧
    mbrLayout (gen_ptable
        { mbrExCfg with ignore_null_sized_partition := true }
        [mkPart 0 0, mkPart 1024 0]) =
      mbrLayout (gen_ptable
        { mbrExCfg with ignore_null_sized_partition := true }
        ([mkPart 0 0, mkPart 1024 0].filter (fun p => p.size ≠ 0))) :=
  ⟨claim3_zero_size.1 mbrExCfg [mkPart 1024 0, mkPart 0 0] rfl
      ⟨mkPart 0 0, by decide, rfl⟩,
   claim3_zero_size.2.2.2.2.2.2.1
      { mbrExCfg with ignore_null_sized_partition := true }
      [mkPart 0 0, mkPart 1024 0] rfl⟩

end Ptgen

namespace Ptgen

/-! ### GPT header CRC fields (claim C4) and the backup header (claim C8) -/

/-- Claim C4: for every successfully emitted GPT table, recomputing CRC32
over the emitted 92-byte header with its own CRC field zeroed reproduces
the stored `crc32`, and recomputing CRC32 over the 128 x 128-byte entry
array reproduces the stored `entry_crc32`; both also hold for the backup
header when it is emitted (its entry-array CRC being the primary's). -/
theorem claim4_crc (cfg : Cfg) (guid : List Nat) (parts : List Partinfo)
    (h : exceptOk (gen_gptable cfg guid parts) = true) :
    gpt_crc32 (gpthBytes
        { (gptOutOf (gen_gptable cfg guid parts)).header with crc32 := 0 }) =
      (gptOutOf (gen_gptable cfg guid parts)).header.crc32 ∧
    gpt_crc32 (entriesBytes (gptOutOf (gen_gptable cfg guid parts)).entries) =
      (gptOutOf (gen_gptable cfg guid parts)).header.entry_crc32 ∧
    gpt_crc32 (gpthBytes
        { (gptOutOf (gen_gptable cfg guid parts)).backup.getD
            (gptOutOf (gen_gptable cfg guid parts)).header with crc32 := 0 }) =
      ((gptOutOf (gen_gptable cfg guid parts)).backup.getD
        (gptOutOf (gen_gptable cfg guid parts)).header).crc32 ∧
    ((gptOutOf (gen_gptable cfg guid parts)).backup.getD
        (gptOutOf (gen_gptable cfg guid parts)).header).entry_crc32 =
      (gptOutOf (gen_gptable cfg guid parts)).header.entry_crc32 := by
  unfold gen_gptable at *
  cases hl : gptableLoop cfg guid parts 0 (GPT_SIZE + cfg.gpt_first_entry_sector) with
  | error e =>
    rw [hl] at h
    simp [exceptOk] at h
  | ok r =>
    obtain ⟨items, sect⟩ := r
    by_cases halt : cfg.gpt_alternate <;>
      simp [gptOutOf, halt, mkBackupGpth]

/-- Witness for claim C4: the single-partition GPT build with the backup
table enabled succeeds, and its emitted CRC fields satisfy the
recomputation property. -/
theorem claim4_witness :
    gpt_crc32 (gpthBytes
        { (gptOutOf (gen_gptable gptAltExCfg exGuid [mkPart 1024 0])).header with
          crc32 := 0 }) =
      (gptOutOf (gen_gptable gptAltExCfg exGuid [mkPart 1024 0])).header.crc32 ∧
    gpt_crc32 (entriesBytes
        (gptOutOf (gen_gptable gptAltExCfg exGuid [mkPart 1024 0])).entries) =
      (gptOutOf (gen_gptable gptAltExCfg exGuid [mkPart 1024 0])).header.entry_crc32 ∧
    gpt_crc32 (gpthBytes
        { (gptOutOf (gen_gptable gptAltExCfg exGuid [mkPart 1024 0])).backup.getD
            (gptOutOf (gen_gptable gptAltExCfg exGuid [mkPart 1024 0])).header with
          crc32 := 0 }) =
      ((gptOutOf (gen_gptable gptAltExCfg exGuid [mkPart 1024 0])).backup.getD
        (gptOutOf (gen_gptable gptAltExCfg exGuid [mkPart 1024 0])).header).crc32 ∧
    ((gptOutOf (gen_gptable gptAltExCfg exGuid [mkPart 1024 0])).backup.getD
        (gptOutOf (gen_gptable gptAltExCfg exGuid [mkPart 1024 0])).header).entry_crc32 =
      (gptOutOf (gen_gptable gptAltExCfg exGuid [mkPart 1024 0])).header.entry_crc32 :=
  claim4_crc gptAltExCfg exGuid [mkPart 1024 0] rfl

/-- Claim C8: when the backup table is enabled, every successful GPT build
emits a backup header that equals the primary header except that the self
and alternate LBAs are swapped, the entry-array location points just below
the backup header (self minus the entry-array size in sectors), and the
CRC is recomputed over the modified header; the entry-array CRC is the
primary's, and the self/alternate values of the two headers are
complementary. -/
theorem claim8_backup (cfg : Cfg) (guid : List Nat) (parts : List Partinfo)
    (halt : cfg.gpt_alternate = true)
    (h : exceptOk (gen_gptable cfg guid parts) = true) :
    ((gptOutOf (gen_gptable cfg guid parts)).backup.isSome = true) ∧
    ((gptOutOf (gen_gptable cfg guid parts)).backup.getD default).self =
      (gptOutOf (gen_gptable cfg guid parts)).header.alternate ∧
    ((gptOutOf (gen_gptable cfg guid parts)).backup.getD default).alternate =
      (gptOutOf (gen_gptable cfg guid parts)).header.self ∧
    ((gptOutOf (gen_gptable cfg guid parts)).backup.getD default).first_entry =
      ((gptOutOf (gen_gptable cfg guid parts)).backup.getD default).self -
        GPT_SIZE ∧
    ((gptOutOf (gen_gptable cfg guid parts)).backup.getD default).entry_crc32 =
      (gptOutOf (gen_gptable cfg guid parts)).header.entry_crc32 ∧
    ((gptOutOf (gen_gptable cfg guid parts)).backup.getD default).crc32 =
      gpt_crc32 (gpthBytes
        { (gptOutOf (gen_gptable cfg guid parts)).backup.getD default with
          crc32 := 0 }) ∧
    ({ (gptOutOf (gen_gptable cfg guid parts)).backup.getD default with
        self := (gptOutOf (gen_gptable cfg guid parts)).header.self
        alternate := (gptOutOf (gen_gptable cfg guid parts)).header.alternate
        first_entry := (gptOutOf (gen_gptable cfg guid parts)).header.first_entry
        crc32 := (gptOutOf (gen_gptable cfg guid parts)).header.crc32 } =
      (gptOutOf (gen_gptable cfg guid parts)).header) := by
  unfold gen_gptable at *
  cases hl : gptableLoop cfg guid parts 0 (GPT_SIZE + cfg.gpt_first_entry_sector) with
  | error e =>
    rw [hl] at h
    simp [exceptOk] at h
  | ok r =>
    obtain ⟨items, sect⟩ := r
    simp [gptOutOf, halt, mkBackupGpth]

/-- Witness for claim C8: the single-partition GPT build with the backup
table enabled emits a backup header with the claimed relation to the
primary one. -/
theorem claim8_witness :
    ((gptOutOf (gen_gptable gptAltExCfg exGuid [mkPart 2048 0])).backup.isSome =
      true) ∧
    ((gptOutOf (gen_gptable gptAltExCfg exGuid [mkPart 2048 0])).backup.getD
        default).self =
      (gptOutOf (gen_gptable gptAltExCfg exGuid [mkPart 2048 0])).header.alternate ∧
    ((gptOutOf (gen_gptable gptAltExCfg exGuid [mkPart 2048 0])).backup.getD
        default).alternate =
      (gptOutOf (gen_gptable gptAltExCfg exGuid [mkPart 2048 0])).header.self ∧
    ((gptOutOf (gen_gptable gptAltExCfg exGuid [mkPart 2048 0])).backup.getD
        default).first_entry =
      ((gptOutOf (gen_gptable gptAltExCfg exGuid [mkPart 2048 0])).backup.getD
        default).self - GPT_SIZE ∧
    ((gptOutOf (gen_gptable gptAltExCfg exGuid [mkPart 2048 0])).backup.getD
        default).entry_crc32 =
      (gptOutOf (gen_gptable gptAltExCfg exGuid [mkPart 2048 0])).header.entry_crc32 ∧
    ((gptOutOf (gen_gptable gptAltExCfg exGuid [mkPart 2048 0])).backup.getD
        default).crc32 =
      gpt_crc32 (gpthBytes
        { (gptOutOf (gen_gptable gptAltExCfg exGuid [mkPart 2048 0])).backup.getD
            default with crc32 := 0 }) ∧
    ({ (gptOutOf (gen_gptable gptAltExCfg exGuid [mkPart 2048 0])).backup.getD
        default with
        self := (gptOutOf (gen_gptable gptAltExCfg exGuid [mkPart 2048 0])).header.self
        alternate :=
          (gptOutOf (gen_gptable gptAltExCfg exGuid [mkPart 2048 0])).header.alternate
        first_entry :=
          (gptOutOf (gen_gptable gptAltExCfg exGuid [mkPart 2048 0])).header.first_entry
        crc32 :=
          (gptOutOf (gen_gptable gptAltExCfg exGuid [mkPart 2048 0])).header.crc32 } =
      (gptOutOf (gen_gptable gptAltExCfg exGuid [mkPart 2048 0])).header) :=
  claim8_backup gptAltExCfg exGuid [mkPart 2048 0] rfl rfl

end Ptgen

namespace Ptgen

/-! ### The BIOS-boot filler entry (claim C6) -/

theorem gptStart_ge (cfg : Cfg) (p : Partinfo) (sect : Nat)
    (hov : ¬(p.start ≠ 0 ∧ p.start * 2 < sect)) :
    sect ≤ gptStart cfg p sect := by
  unfold gptStart
  by_cases he : p.start ≠ 0
  · rw [if_pos he]
    omega
  · rw [if_neg he]
    by_cases hk : cfg.kb_align ≠ 0
    · rw [if_pos hk]
      exact round_to_kb_ge cfg _ (Nat.pos_of_ne_zero hk)
    · rw [if_neg hk]

/-- Every item of a successful GPT loop run has its request index at or
above the loop's starting index. -/
theorem gptableLoop_idx_lb (cfg : Cfg) (guid : List Nat) :
    ∀ (parts : List Partinfo) (i sect : Nat) (r : List GptItem × Nat),
      gptableLoop cfg guid parts i sect = .ok r →
      ∀ it ∈ r.1, i ≤ it.idx := by
  intro parts
  induction parts with
  | nil =>
    intro i sect r h it hit
    simp only [gptableLoop] at h
    cases h
    cases hit
  | cons p rest ih =>
    intro i sect r h it hit
    by_cases hz : p.size = 0
    · by_cases hig : cfg.ignore_null_sized_partition
      · simp only [gptableLoop, hz, if_pos rfl, if_pos hig] at h
        have := ih _ _ _ h it hit
        omega
      · simp only [gptableLoop, hz, if_pos rfl, if_neg hig] at h
        cases h
    · by_cases hov : p.start ≠ 0 ∧ p.start * 2 < sect
      · simp only [gptableLoop, hz, if_neg hz, if_pos hov] at h
        cases h
      · by_cases hgl : 0 < cfg.gpt_last_usable_sector ∧
            cfg.gpt_last_usable_sector + 1 < gptStart cfg p sect + p.size * 2
        · simp only [gptableLoop, hz, if_neg hz, if_neg hov, if_pos hgl] at h
          cases h
        · rw [gptableLoop_cons_lay cfg guid p rest i sect hz hov hgl] at h
          cases hr : gptableLoop cfg guid rest (i + 1)
              (gptStart cfg p sect + p.size * 2) with
          | error e => rw [hr] at h; cases h
          | ok r' =>
            rw [hr] at h
            simp only [Except.map, Except.ok.injEq] at h
            rw [← h] at hit
            cases hit with
            | head => exact Nat.le_refl _
            | tail _ htail =>
              have := ih _ _ _ hr it htail
              omega

/-- Every item of a successful GPT loop run starts at or after the
starting cursor, has a positive size, and its entry records start and
inclusive end `start + size*2 - 1`. -/
theorem gptableLoop_item_facts (cfg : Cfg) (guid : List Nat) :
    ∀ (parts : List Partinfo) (i sect : Nat) (r : List GptItem × Nat),
      gptableLoop cfg guid parts i sect = .ok r →
      ∀ it ∈ r.1, sect ≤ it.start ∧ 1 ≤ it.size ∧
        it.gpte.start = it.start ∧
        it.gpte.end_ = it.start + it.size * 2 - 1 := by
  intro parts
  induction parts with
  | nil =>
    intro i sect r h it hit
    simp only [gptableLoop] at h
    cases h
    cases hit
  | cons p rest ih =>
    intro i sect r h it hit
    by_cases hz : p.size = 0
    · by_cases hig : cfg.ignore_null_sized_partition
      · simp only [gptableLoop, hz, if_pos rfl, if_pos hig] at h
        exact ih _ _ _ h it hit
      · simp only [gptableLoop, hz, if_pos rfl, if_neg hig] at h
        cases h
    · by_cases hov : p.start ≠ 0 ∧ p.start * 2 < sect
      · simp only [gptableLoop, hz, if_neg hz, if_pos hov] at h
        cases h
      · by_cases hgl : 0 < cfg.gpt_last_usable_sector ∧
            cfg.gpt_last_usable_sector + 1 < gptStart cfg p sect + p.size * 2
        · simp only [gptableLoop, hz, if_neg hz, if_neg hov, if_pos hgl] at h
          cases h
        · rw [gptableLoop_cons_lay cfg guid p rest i sect hz hov hgl] at h
          cases hr : gptableLoop cfg guid rest (i + 1)
              (gptStart cfg p sect + p.size * 2) with
          | error e => rw [hr] at h; cases h
          | ok r' =>
            rw [hr] at h
            simp only [Except.map, Except.ok.injEq] at h
            rw [← h] at hit
            cases hit with
            | head =>
              refine ⟨gptStart_ge cfg p sect hov, ?_, rfl, rfl⟩
              show 1 ≤ p.size
              omega
            | tail _ htail =>
              have hfacts := ih _ _ _ hr it htail
              have hge := gptStart_ge cfg p sect hov
              exact ⟨by omega, hfacts.2.1, hfacts.2.2.1, hfacts.2.2.2⟩

/-- Items of a successful GPT loop run are laid out in request order
without overlap: an item with a smaller request index ends at or before a
later item starts. -/
theorem gptableLoop_pairs (cfg : Cfg) (guid : List Nat) :
    ∀ (parts : List Partinfo) (i sect : Nat) (r : List GptItem × Nat),
      gptableLoop cfg guid parts i sect = .ok r →
      ∀ it0 ∈ r.1, ∀ it ∈ r.1, it0.idx < it.idx →
        it0.start + it0.size * 2 ≤ it.start := by
  intro parts
  induction parts with
  | nil =>
    intro i sect r h it0 hit0 it hit hlt
    simp only [gptableLoop] at h
    cases h
    cases hit0
  | cons p rest ih =>
    intro i sect r h it0 hit0 it hit hlt
    by_cases hz : p.size = 0
    · by_cases hig : cfg.ignore_null_sized_partition
      · simp only [gptableLoop, hz, if_pos rfl, if_pos hig] at h
        exact ih _ _ _ h it0 hit0 it hit hlt
      · simp only [gptableLoop, hz, if_pos rfl, if_neg hig] at h
        cases h
    · by_cases hov : p.start ≠ 0 ∧ p.start * 2 < sect
      · simp only [gptableLoop, hz, if_neg hz, if_pos hov] at h
        cases h
      · by_cases hgl : 0 < cfg.gpt_last_usable_sector ∧
            cfg.gpt_last_usable_sector + 1 < gptStart cfg p sect + p.size * 2
        · simp only [gptableLoop, hz, if_neg hz, if_neg hov, if_pos hgl] at h
          cases h
        · rw [gptableLoop_cons_lay cfg guid p rest i sect hz hov hgl] at h
          cases hr : gptableLoop cfg guid rest (i + 1)
              (gptStart cfg p sect + p.size * 2) with
          | error e => rw [hr] at h; cases h
          | ok r' =>
            rw [hr] at h
            simp only [Except.map, Except.ok.injEq] at h
            rw [← h] at hit0 hit
            cases hit0 with
            | head =>
              cases hit with
              | head => simp at hlt
              | tail _ htail =>
                have := (gptableLoop_item_facts cfg guid rest _ _ _ hr it htail).1
                simpa using this
            | tail _ htail0 =>
              cases hit with
              | head =>
                have := gptableLoop_idx_lb cfg guid rest _ _ _ hr it0 htail0
                simp only at hlt
                omega
              | tail _ htail =>
                exact ih _ _ _ hr it0 htail0 it htail hlt

theorem entriesArrOf_getD (items : List GptItem) (j : Nat) (hj : j < 128) :
    (entriesArrOf items).getD j zeroGpte =
      ((items.find? (fun it => it.idx = j)).map (·.gpte)).getD zeroGpte := by
  simp [entriesArrOf, List.getD_eq_getElem?_getD, List.getElem?_map,
    List.getElem?_range hj]

theorem entriesArrOf_length (items : List GptItem) :
    (entriesArrOf items).length = 128 := by
  simp [entriesArrOf]

/-- Claim C6: in a successful GPT build, the first request has a non-zero
explicit start whose computed start lies beyond the reserved entry-table
region (first-entry sector + entry-array size) if and only if the 128th
entry slot holds a BIOS-boot-type entry starting at the first sector after
the entry-table region and ending (inclusive) one sector before the first
request's computed start. -/
theorem claim6_filler (cfg : Cfg) (guid : List Nat) (parts : List Partinfo)
    (h : exceptOk (gen_gptable cfg guid parts) = true) :
    (((parts.headD default).start ≠ 0 ∧
        cfg.gpt_first_entry_sector + GPT_SIZE <
          actualStart0 (gptOutOf (gen_gptable cfg guid parts)).items) ↔
      (((gptOutOf (gen_gptable cfg guid parts)).entries.getD 127 zeroGpte).gtype =
          GUID_PARTITION_BIOS_BOOT ∧
        ((gptOutOf (gen_gptable cfg guid parts)).entries.getD 127 zeroGpte).start =
          cfg.gpt_first_entry_sector + GPT_SIZE ∧
        ((gptOutOf (gen_gptable cfg guid parts)).entries.getD 127 zeroGpte).end_ =
          actualStart0 (gptOutOf (gen_gptable cfg guid parts)).items - 1)) := by
  unfold gen_gptable at *
  cases hl : gptableLoop cfg guid parts 0 (GPT_SIZE + cfg.gpt_first_entry_sector) with
  | error e =>
    rw [hl] at h
    simp [exceptOk] at h
  | ok r =>
    obtain ⟨items, sect⟩ := r
    simp only [gptOutOf]
    have h127 : ∀ x : GptEntry,
        ((entriesArrOf items).set 127 x).getD 127 zeroGpte = x := by
      intro x
      simp [List.getD_eq_getElem?_getD, List.getElem?_set, entriesArrOf_length]
    by_cases hcond : (parts.headD default).start ≠ 0 ∧
        cfg.gpt_first_entry_sector + GPT_SIZE < actualStart0 items
    · have hset : applyFiller cfg guid parts items (entriesArrOf items) =
          (entriesArrOf items).set 127
            { (entriesArrOf items).getD 127 zeroGpte with
              start := cfg.gpt_first_entry_sector + GPT_SIZE
              end_ := actualStart0 items - 1
              gtype := GUID_PARTITION_BIOS_BOOT
              guid := guidAddLast guid 128 } := by
        unfold applyFiller
        rw [if_pos hcond]
      refine iff_of_true hcond ?_
      rw [hset, h127]
      exact ⟨rfl, rfl, rfl⟩
    · refine iff_of_false hcond ?_
      have hid : applyFiller cfg guid parts items (entriesArrOf items) =
          entriesArrOf items := by
        unfold applyFiller
        rw [if_neg hcond]
      rw [hid, entriesArrOf_getD items 127 (by omega)]
      intro hrhs
      cases hfind : items.find? (fun it => it.idx = 127) with
      | none =>
        rw [hfind] at hrhs
        simp only [Option.map_none', Option.getD_none] at hrhs
        exact absurd hrhs.1 (by decide)
      | some it =>
        rw [hfind] at hrhs
        simp only [Option.map_some', Option.getD_some] at hrhs
        have hmem := List.mem_of_find?_eq_some hfind
        have hidx : it.idx = 127 := by
          have := List.find?_some hfind
          simpa using this
        have hfacts := gptableLoop_item_facts cfg guid parts _ _ _ hl it hmem
        have hgpt32 : GPT_SIZE = 32 := rfl
        cases hfind0 : items.find? (fun it => it.idx = 0) with
        | none =>
          have ha0 : actualStart0 items = 0 := by
            simp [actualStart0, hfind0]
          rw [ha0] at hrhs
          omega
        | some it0 =>
          have hmem0 := List.mem_of_find?_eq_some hfind0
          have hidx0 : it0.idx = 0 := by
            have := List.find?_some hfind0
            simpa using this
          have ha0 : actualStart0 items = it0.start := by
            simp [actualStart0, hfind0]
          have hfacts0 := gptableLoop_item_facts cfg guid parts _ _ _ hl it0 hmem0
          have hpair := gptableLoop_pairs cfg guid parts _ _ _ hl it0 hmem0 it hmem
            (by omega)
          rw [ha0] at hrhs
          omega

/-- Witness for claim C6: a single request with explicit start 100 KB
(sector 200, beyond the entry-table region ending at sector 34) succeeds
and the equivalence holds for the emitted table. -/
theorem claim6_witness :
    ((([mkPart 1024 100].headD default).start ≠ 0 ∧
        gptExCfg.gpt_first_entry_sector + GPT_SIZE <
          actualStart0 (gptOutOf (gen_gptable gptExCfg exGuid [mkPart 1024 100])).items) ↔
      (((gptOutOf (gen_gptable gptExCfg exGuid [mkPart 1024 100])).entries.getD
            127 zeroGpte).gtype = GUID_PARTITION_BIOS_BOOT ∧
        ((gptOutOf (gen_gptable gptExCfg exGuid [mkPart 1024 100])).entries.getD
            127 zeroGpte).start =
          gptExCfg.gpt_first_entry_sector + GPT_SIZE ∧
        ((gptOutOf (gen_gptable gptExCfg exGuid [mkPart 1024 100])).entries.getD
            127 zeroGpte).end_ =
          actualStart0 (gptOutOf (gen_gptable gptExCfg exGuid [mkPart 1024 100])).items
            - 1)) :=
  claim6_filler gptExCfg exGuid [mkPart 1024 100] rfl

end Ptgen

namespace Ptgen

/-! ### Hybrid MBR slot CHS values (claim C7) -/

/-- Claim C7, exhibiting the code defect: a GPT build with two
hybrid-flagged requests (1024 KB at sector 34, 2048 KB at sector 2082)
mirrors them into primary MBR slots 1 and 2, but slot 2's CHS fields are
left zero while slot 1's CHS fields describe the second partition's range
(the source writes CHS into `pte[1]` for every hybrid partition instead of
`pte[pmbr]`, ptgen.c lines 468-469); the claim instead requires each
mirrored slot to carry the CHS values of its own sector range. -/
theorem claim7_hybrid_chs :
    ((gptOutOf (gen_gptable gptExCfg exGuid
        [mkHybridPart 1024, mkHybridPart 2048])).pte.getD 2 zeroPte).chs_start =
      [0, 0, 0] ∧
    ((gptOutOf (gen_gptable gptExCfg exGuid
        [mkHybridPart 1024, mkHybridPart 2048])).pte.getD 2 zeroPte).start =
      2082 ∧
    to_chs gptExCfg 2082 ≠ [0, 0, 0] ∧
    ((gptOutOf (gen_gptable gptExCfg exGuid
        [mkHybridPart 1024, mkHybridPart 2048])).pte.getD 1 zeroPte).chs_start =
      to_chs gptExCfg 2082 ∧
    ((gptOutOf (gen_gptable gptExCfg exGuid
        [mkHybridPart 1024, mkHybridPart 2048])).pte.getD 1 zeroPte).start =
      34 := by
  exact ⟨rfl, rfl, by decide, rfl, rfl⟩

/-! ### Active-partition clamping (claim C9) -/

theorem and4_or_zero (a b : Nat) (ha : a &&& 4 = 0) (hb : b &&& 4 = 0) :
    (a ||| b) &&& 4 = 0 := by
  rw [Nat.and_distrib_right, ha, hb]
  rfl

/-- With active index 0, no MBR loop item carries the 0x80 active byte. -/
theorem ptableLoop_active0 (cfg : Cfg) (hact : cfg.active = 0) :
    ∀ (parts : List Partinfo) (i sect : Nat) (r : List MbrItem × Nat),
      ptableLoop cfg parts i sect = .ok r →
      ∀ it ∈ r.1, it.pte.active = 0 := by
  intro parts
  induction parts with
  | nil =>
    intro i sect r h it hit
    simp only [ptableLoop] at h
    cases h
    cases hit
  | cons p rest ih =>
    intro i sect r h it hit
    by_cases hz : p.size = 0
    · by_cases hig : cfg.ignore_null_sized_partition
      · simp only [ptableLoop, hz, if_pos rfl, if_pos hig] at h
        exact ih _ _ _ h it hit
      · simp only [ptableLoop, hz, if_pos rfl, if_neg hig] at h
        cases h
    · by_cases hov : p.start ≠ 0 ∧ p.start * 2 < sect + cfg.sectors
      · simp only [ptableLoop, hz, if_neg hz, if_pos hov] at h
        cases h
      · rw [ptableLoop_cons_lay cfg p rest i sect hz hov] at h
        cases hr : ptableLoop cfg rest (i + 1) (mbrNext cfg p sect) with
        | error e => rw [hr] at h; cases h
        | ok r' =>
          rw [hr] at h
          simp only [Except.map, Except.ok.injEq] at h
          rw [← h] at hit
          cases hit with
          | head => simp [mkMbrPte, hact]
          | tail _ htail => exact ih _ _ _ hr it htail

/-- With active index 0 and all request attribute words clear of the
legacy-boot bit, no GPT loop item's entry carries the legacy-boot bit. -/
theorem gptableLoop_attr0 (cfg : Cfg) (guid : List Nat) (hact : cfg.active = 0) :
    ∀ (parts : List Partinfo), (∀ p ∈ parts, p.gattr &&& 4 = 0) →
      ∀ (i sect : Nat) (r : List GptItem × Nat),
        gptableLoop cfg guid parts i sect = .ok r →
        ∀ it ∈ r.1, it.gpte.attr &&& 4 = 0 := by
  intro parts
  induction parts with
  | nil =>
    intro _ i sect r h it hit
    simp only [gptableLoop] at h
    cases h
    cases hit
  | cons p rest ih =>
    intro hcl i sect r h it hit
    have hclrest : ∀ p ∈ rest, p.gattr &&& 4 = 0 :=
      fun q hq => hcl q (List.mem_cons_of_mem p hq)
    by_cases hz : p.size = 0
    · by_cases hig : cfg.ignore_null_sized_partition
      · simp only [gptableLoop, hz, if_pos rfl, if_pos hig] at h
        exact ih hclrest _ _ _ h it hit
      · simp only [gptableLoop, hz, if_pos rfl, if_neg hig] at h
        cases h
    · by_cases hov : p.start ≠ 0 ∧ p.start * 2 < sect
      · simp only [gptableLoop, hz, if_neg hz, if_pos hov] at h
        cases h
      · by_cases hgl : 0 < cfg.gpt_last_usable_sector ∧
            cfg.gpt_last_usable_sector + 1 < gptStart cfg p sect + p.size * 2
        · simp only [gptableLoop, hz, if_neg hz, if_neg hov, if_pos hgl] at h
          cases h
        · rw [gptableLoop_cons_lay cfg guid p rest i sect hz hov hgl] at h
          cases hr : gptableLoop cfg guid rest (i + 1)
              (gptStart cfg p sect + p.size * 2) with
          | error e => rw [hr] at h; cases h
          | ok r' =>
            rw [hr] at h
            simp only [Except.map, Except.ok.injEq] at h
            rw [← h] at hit
            cases hit with
            | head =>
              show (mkGpte cfg guid i (gptStart cfg p sect) p).attr &&& 4 = 0
              unfold mkGpte
              refine and4_or_zero _ _ (and4_or_zero _ _
                (hcl p (List.mem_cons_self p rest)) ?_) ?_
              · rw [hact]
                simp [GPT_ATTR_LEGACY_BOOT]
              · by_cases hreq : p.required <;> simp [hreq, GPT_ATTR_PLAT_REQUIRED]
            | tail _ htail => exact ih hclrest _ _ _ hr it htail

/-- Every entry of the final 128-slot array (filler included) keeps the
legacy-boot bit clear when the loop items do. -/
theorem entries_attr0 (cfg : Cfg) (guid : List Nat) (parts : List Partinfo)
    (items : List GptItem) (hitems : ∀ it ∈ items, it.gpte.attr &&& 4 = 0) :
    ∀ e ∈ applyFiller cfg guid parts items (entriesArrOf items),
      e.attr &&& 4 = 0 := by
  have harr : ∀ e ∈ entriesArrOf items, e.attr &&& 4 = 0 := by
    intro e he
    unfold entriesArrOf at he
    obtain ⟨j, hj, hje⟩ := List.mem_map.mp he
    cases hfind : items.find? (fun it => it.idx = j) with
    | none =>
      rw [hfind] at hje
      simp only [Option.map_none', Option.getD_none] at hje
      rw [← hje]
      decide
    | some it =>
      rw [hfind] at hje
      simp only [Option.map_some', Option.getD_some] at hje
      rw [← hje]
      exact hitems it (List.mem_of_find?_eq_some hfind)
  intro e he
  unfold applyFiller at he
  by_cases hcond : (parts.headD default).start ≠ 0 ∧
      cfg.gpt_first_entry_sector + GPT_SIZE < actualStart0 items
  · rw [if_pos hcond] at he
    rcases List.mem_or_eq_of_mem_set he with hmem | heq
    · exact harr e hmem
    · rw [heq]
      show ((entriesArrOf items).getD 127 zeroGpte).attr &&& 4 = 0
      rw [List.getD_eq_getElem?_getD]
      cases hg : (entriesArrOf items)[127]? with
      | none => decide
      | some q =>
        simp only [Option.getD_some]
        exact harr q (List.getElem?_mem hg)
  · rw [if_neg hcond] at he
    exact harr e he

/-- Every slot of the primary MBR array built by the hybrid fold keeps a
zero active byte when the active index is 0. -/
theorem hybridPteFold_active0 (cfg : Cfg) (hact : cfg.active = 0) :
    ∀ (items : List GptItem) (arr : List MbrPte) (pm : Nat),
      (∀ q ∈ arr, q.active = 0) →
      ∀ q ∈ hybridPteFold cfg arr pm items, q.active = 0 := by
  intro items
  induction items with
  | nil =>
    intro arr pm harr q hq
    exact harr q hq
  | cons it rest ih =>
    intro arr pm harr q hq
    by_cases hc : it.hybrid = true ∧ pm < 4
    · rw [show hybridPteFold cfg arr pm (it :: rest) =
          hybridPteFold cfg
            ((arr.set pm
              { zeroPte with
                active := if it.idx + 1 = cfg.active then 0x80 else 0
                ptype := it.ptype
                start := it.start % 2 ^ 32
                length := (it.size * 2) % 2 ^ 32 }).set 1
              { (arr.set pm
                  { zeroPte with
                    active := if it.idx + 1 = cfg.active then 0x80 else 0
                    ptype := it.ptype
                    start := it.start % 2 ^ 32
                    length := (it.size * 2) % 2 ^ 32 }).getD 1 zeroPte with
                chs_start := to_chs cfg it.start
                chs_end := to_chs cfg (it.start + it.size * 2 - 1) })
            (pm + 1) rest from by
        simp [hybridPteFold, hc]] at hq
      refine ih _ _ ?_ q hq
      intro q' hq'
      have hx : ∀ q'' ∈ arr.set pm
          { zeroPte with
            active := if it.idx + 1 = cfg.active then 0x80 else 0
            ptype := it.ptype
            start := it.start % 2 ^ 32
            length := (it.size * 2) % 2 ^ 32 }, q''.active = 0 := by
        intro q'' hq''
        rcases List.mem_or_eq_of_mem_set hq'' with hmem | heq
        · exact harr q'' hmem
        · rw [heq]
          simp [hact]
      rcases List.mem_or_eq_of_mem_set hq' with hmem | heq
      · exact hx q' hmem
      · rw [heq]
        show ((arr.set pm _).getD 1 zeroPte).active = 0
        rw [List.getD_eq_getElem?_getD]
        cases hg : (arr.set pm
            { zeroPte with
              active := if it.idx + 1 = cfg.active then 0x80 else 0
              ptype := it.ptype
              start := it.start % 2 ^ 32
              length := (it.size * 2) % 2 ^ 32 })[1]? with
        | none => rfl
        | some q'' =>
          simp only [Option.getD_some]
          exact hx q'' (List.getElem?_mem hg)
    · rw [show hybridPteFold cfg arr pm (it :: rest) =
          hybridPteFold cfg arr pm rest from by simp [hybridPteFold, hc]] at hq
      exact ih _ _ harr q hq

/-- Claim C9: an active-partition index that is negative or exceeds the
table capacity (4 for MBR mode, 128 for GPT mode) is reset to 0 by `main`;
and with active index 0 no MBR entry receives the active byte 0x80 and no
GPT entry receives the legacy-BIOS-bootable attribute bit (requests
carrying a clear legacy-boot bit themselves, as every request built by
`main` does). -/
theorem claim9_active_clamp :
    (∀ (g : Bool) (a : Int),
      (a < 0 ∨ (g = true ∧ 128 < a) ∨ (g = false ∧ 4 < a)) →
      clampActive g a = 0) ∧
    (∀ (cfg : Cfg) (parts : List Partinfo), cfg.active = 0 →
      ∀ it ∈ mbrItemsOf (gen_ptable cfg parts), it.pte.active = 0) ∧
    (∀ (cfg : Cfg) (guid : List Nat) (parts : List Partinfo), cfg.active = 0 →
      (∀ p ∈ parts, p.gattr &&& GPT_ATTR_LEGACY_BOOT = 0) →
      (∀ e ∈ (gptOutOf (gen_gptable cfg guid parts)).entries,
        e.attr &&& GPT_ATTR_LEGACY_BOOT = 0) ∧
      (∀ q ∈ (gptOutOf (gen_gptable cfg guid parts)).pte, q.active = 0)) := by
  refine ⟨?_, ?_, ?_⟩
  · intro g a h
    unfold clampActive
    rw [if_pos (by tauto)]
  · intro cfg parts hact it hit
    unfold gen_ptable mbrItemsOf at hit
    cases hl : ptableLoop cfg parts 0 0 with
    | error e =>
      rw [hl] at hit
      simp [Except.map] at hit
    | ok r =>
      rw [hl] at hit
      simp only [Except.map] at hit
      exact ptableLoop_active0 cfg hact parts 0 0 r hl it hit
  · intro cfg guid parts hact hcl
    unfold gen_gptable gptOutOf
    cases hl : gptableLoop cfg guid parts 0 (GPT_SIZE + cfg.gpt_first_entry_sector) with
    | error e =>
      constructor
      · intro e he
        cases he
      · intro q hq
        cases hq
    | ok r =>
      obtain ⟨items, sect⟩ := r
      have hitems := gptableLoop_attr0 cfg guid hact parts
        (by simpa [GPT_ATTR_LEGACY_BOOT] using hcl) 0 _ _ hl
      constructor
      · intro e he
        simp only at he
        exact entries_attr0 cfg guid parts items hitems e he
      · intro q hq
        simp only at hq
        rcases List.mem_or_eq_of_mem_set hq with hmem | heq
        · refine hybridPteFold_active0 cfg hact items (List.replicate 4 zeroPte)
            1 ?_ q hmem
          intro q' hq'
          rw [List.eq_of_mem_replicate hq']
          rfl
        · rw [heq]

/-- Witness for claim C9: the out-of-range index 7 in MBR mode is clamped
to 0, and with active index 0 the concrete MBR and GPT builds emit no
active byte and no legacy-boot bit. -/
theorem claim9_witness :
    clampActive false 7 = 0 ∧
    (∀ it ∈ mbrItemsOf (gen_ptable mbrExCfg [mkPart 1024 0]), it.pte.active = 0) ∧
    (∀ e ∈ (gptOutOf (gen_gptable gptExCfg exGuid [mkHybridPart 1024])).entries,
      e.attr &&& GPT_ATTR_LEGACY_BOOT = 0) ∧
    (∀ q ∈ (gptOutOf (gen_gptable gptExCfg exGuid [mkHybridPart 1024])).pte,
      q.active = 0) := by
  refine ⟨claim9_active_clamp.1 false 7 (by decide), ?_, ?_, ?_⟩
  · exact claim9_active_clamp.2.1 mbrExCfg [mkPart 1024 0] rfl
  · exact (claim9_active_clamp.2.2 gptExCfg exGuid [mkHybridPart 1024] rfl
      (by decide)).1
  · exact (claim9_active_clamp.2.2 gptExCfg exGuid [mkHybridPart 1024] rfl
      (by decide)).2

end Ptgen
